import Mathlib

/-!
Verification of the review-analysis backend against its specification.

This file gives a shallow embedding, in Lean 4, of the parts of the Python
backend that the specification's claims talk about:

* a model `PyVal` of the JSON-like Python values the backend passes around,
  together with Python truthiness, `dict.get`, and the `or` operator;
* a model of `json.dumps` / `json.loads` (standard-library collaborators of
  the response mapper), with a proved round-trip theorem;
* the response mapper `openai_mapper` (src/backend/analysis/mappers.py);
* the OpenAI batch adapter `analyze_batch` / `analyze_single`
  (src/backend/analysis/providers/openai_provider.py), over an explicit
  oracle for the HTTP responses;
* the analysis worker's two progress-update paths
  (src/backend/routers/analysis.py, `process_batch`);
* the ingestion engine: `_save_reviews` and the per-title fetch loop of
  `_scrape_game`, and the `start` validation (src/backend/scraper_service.py);
* the credential-vault creation path `create_api_key` (src/backend/crud.py).

Machine integers are modelled as `Int`/`Nat` (Python integers are unbounded),
Python floats by `ℚ` (the only float arithmetic relevant to the claims is
`playtime_forever / 60` and order comparisons, where the rational model is
exact on both sides of every comparison), and naive-UTC datetimes by `Int`
microseconds since the epoch.
-/

namespace RAT

/-! ## Python values

`PyVal` covers the values flowing through the mapper and the providers:
`None`, booleans, integers, strings, lists and (string-keyed) dicts.
Floats do not occur in any mapper or provider payload a claim mentions and
are not included. -/

inductive PyVal where
  | none
  | bool (b : Bool)
  | int (n : Int)
  | str (s : String)
  | list (xs : List PyVal)
  | dict (kvs : List (String × PyVal))
deriving Repr

mutual

/-- Structural equality test on `PyVal` (the derived instance is unavailable
for this nested inductive, so it is written out and proved correct below). -/
def pyBeq : PyVal → PyVal → Bool
  | .none, .none => true
  | .bool a, .bool b => a == b
  | .int a, .int b => a == b
  | .str a, .str b => a == b
  | .list xs, .list ys => pyBeqItems xs ys
  | .dict xs, .dict ys => pyBeqEntries xs ys
  | _, _ => false

def pyBeqItems : List PyVal → List PyVal → Bool
  | [], [] => true
  | x :: xs, y :: ys => pyBeq x y && pyBeqItems xs ys
  | _, _ => false

def pyBeqEntries : List (String × PyVal) → List (String × PyVal) → Bool
  | [], [] => true
  | (k, v) :: xs, (l, w) :: ys => k == l && pyBeq v w && pyBeqEntries xs ys
  | _, _ => false

end

mutual

theorem pyBeq_iff : ∀ a b : PyVal, pyBeq a b = true ↔ a = b
  | .none, b => by cases b <;> simp [pyBeq]
  | .bool a, b => by cases b <;> simp [pyBeq]
  | .int a, b => by cases b <;> simp [pyBeq]
  | .str a, b => by cases b <;> simp [pyBeq]
  | .list xs, b => by
    cases b <;> simp [pyBeq]
    exact pyBeqItems_iff xs _
  | .dict xs, b => by
    cases b <;> simp [pyBeq]
    exact pyBeqEntries_iff xs _

theorem pyBeqItems_iff : ∀ xs ys : List PyVal, pyBeqItems xs ys = true ↔ xs = ys
  | [], ys => by cases ys <;> simp [pyBeqItems]
  | x :: xs, ys => by
    cases ys with
    | nil => simp [pyBeqItems]
    | cons y ys =>
      simp [pyBeqItems, pyBeq_iff x y, pyBeqItems_iff xs ys]

theorem pyBeqEntries_iff :
    ∀ xs ys : List (String × PyVal), pyBeqEntries xs ys = true ↔ xs = ys
  | [], ys => by cases ys <;> simp [pyBeqEntries]
  | (k, v) :: xs, ys => by
    cases ys with
    | nil => simp [pyBeqEntries]
    | cons y ys =>
      obtain ⟨l, w⟩ := y
      simp [pyBeqEntries, pyBeq_iff v w, pyBeqEntries_iff xs ys, and_assoc]

end

instance : DecidableEq PyVal := fun a b =>
  decidable_of_iff (pyBeq a b = true) (pyBeq_iff a b)

namespace PyVal

/-- Python truthiness: `None`, `False`, `0`, `""`, `[]` and the empty dict are
falsy, everything else is truthy. -/
def truthy : PyVal → Bool
  | .none => false
  | .bool b => b
  | .int n => n != 0
  | .str s => s ≠ ""
  | .list xs => !xs.isEmpty
  | .dict kvs => !kvs.isEmpty

/-- Python `a or b`. -/
def pyOr (a b : PyVal) : PyVal := if a.truthy then a else b

/-- Python `d.get(key)` on a dict value: the stored value, or `None` when the
key is absent. -/
def get (kvs : List (String × PyVal)) (key : String) : PyVal :=
  match kvs.lookup key with
  | some v => v
  | Option.none => .none

/-- Whether a value is a dict (`isinstance(x, dict)`). -/
def isDict : PyVal → Bool
  | .dict _ => true
  | _ => false

/-- Whether a value is a list (`isinstance(x, list)`). -/
def isList : PyVal → Bool
  | .list _ => true
  | _ => false

/-- Whether a value is a string (`isinstance(x, str)`). -/
def isStr : PyVal → Bool
  | .str _ => true
  | _ => false

end PyVal

/-! ## `find_key` (mappers.py, lines 54-68)

Recursive search for a key in nested dict/list structures.  At a dict that
holds the key the stored value is returned even when it is `None`; at every
other level a `None` result is treated as "not found" and the search goes
on, exactly as the Python code's `if res is not None` does. -/

mutual

def find_key (key : String) : PyVal → PyVal
  | .dict kvs =>
    match kvs.lookup key with
    | some v => v
    | Option.none => find_key_values key kvs
  | .list xs => find_key_items key xs
  | _ => .none

def find_key_values (key : String) : List (String × PyVal) → PyVal
  | [] => .none
  | (_, v) :: rest =>
    match find_key key v with
    | .none => find_key_values key rest
    | r => r

def find_key_items (key : String) : List PyVal → PyVal
  | [] => .none
  | x :: rest =>
    match find_key key x with
    | .none => find_key_items key rest
    | r => r

end

/-! ## `json.dumps`

Model of `json.dumps` with Python's default arguments: item separator
`", "`, key separator `": "`, booleans as `true`/`false`, `None` as `null`.
(The `ensure_ascii` escaping of non-ASCII characters is not modelled; the
model passes such characters through verbatim, which `json.loads` maps back
to the same string, so every value the mapper serialises round-trips the
same way it does in Python.) -/

/-- Hexadecimal digit character for `n < 16` (lower case, as Python emits):
code point 48 + n for a decimal digit, 87 + n for a letter (so 10 ↦ 97,
which is `a`). -/
def hexDigitChar (n : Nat) : Char :=
  Char.ofNat (n + if n ≤ 9 then 48 else 87)

/-- JSON escape for one character: the two-character escapes Python uses for
quote, backslash and common control characters, `\u00XX` for the remaining
control characters, and the character itself otherwise. -/
def jsonEscapeChar (c : Char) : List Char :=
  if c = '"' ∨ c = '\\' then ['\\', c]
  else if c = '\n' then ['\\', 'n']
  else if c = '\t' then ['\\', 't']
  else if c = '\r' then ['\\', 'r']
  else if 32 ≤ c.toNat then [c]
  else '\\' :: 'u' :: '0' :: '0' :: hexDigitChar (c.toNat / 16) :: [hexDigitChar (c.toNat % 16)]

/-- The character of the decimal digit `k < 10`. -/
def decDigit (k : Nat) : Char := Char.ofNat ('0'.toNat + k)

/-- Decimal digits of `n`, most significant first, prepended to `tail`. -/
def natDecChars (n : Nat) (tail : List Char) : List Char :=
  if n < 10 then decDigit (n % 10) :: tail
  else natDecChars (n / 10) (decDigit (n % 10) :: tail)
termination_by n
decreasing_by omega

/-- Decimal rendering of an integer, as Python prints it. -/
def intDecChars (i : Int) : List Char :=
  (if i < 0 then ['-'] else []) ++ natDecChars i.natAbs []

/-- Characters of a serialised JSON string body (no surrounding quotes). -/
def jsonEscapeBody (s : String) : List Char := s.toList.flatMap jsonEscapeChar

mutual

/-- Characters of `json.dumps v`. -/
def dumpChars : PyVal → List Char
  | .bool false => 'f' :: ['a', 'l', 's', 'e']
  | .bool true => 't' :: ['r', 'u', 'e']
  | .none => 'n' :: ['u', 'l', 'l']
  | .int n => intDecChars n
  | .str s => '"' :: (jsonEscapeBody s ++ ['"'])
  | .list xs => '[' :: (dumpItems xs ++ [']'])
  | .dict kvs => '{' :: (dumpEntries kvs ++ ['}'])

/-- List items, separated by `", "`. -/
def dumpItems : List PyVal → List Char
  | [] => []
  | x :: xs => dumpChars x ++ dumpItemsTail xs

def dumpItemsTail : List PyVal → List Char
  | [] => []
  | x :: xs => ',' :: ' ' :: (dumpChars x ++ dumpItemsTail xs)

/-- Dict entries `"key": value`, separated by `", "`. -/
def dumpEntries : List (String × PyVal) → List Char
  | [] => []
  | (k, v) :: kvs =>
    '"' :: (jsonEscapeBody k ++ '"' :: ':' :: ' ' :: (dumpChars v ++ dumpEntriesTail kvs))

def dumpEntriesTail : List (String × PyVal) → List Char
  | [] => []
  | (k, v) :: kvs =>
    ',' :: ' ' :: '"' :: (jsonEscapeBody k ++ '"' :: ':' :: ' ' :: (dumpChars v ++ dumpEntriesTail kvs))

end

/-- `json.dumps`, as a string. -/
def dumps (v : PyVal) : String := String.mk (dumpChars v)

/-! ## `json.loads`

A recursive-descent model of `json.loads`.  Like Python's, it skips
whitespace between tokens, requires the whole input to be consumed
(`loads` of a value followed by trailing data fails, which is what the
mapper's brace-scan loop relies on), and yields `PyVal.none` for `null`.
The parser recurses on a fuel counter one larger than the input length,
which the round-trip theorem below shows is always enough for serialised
values. -/

/-- JSON whitespace (space, tab, newline, carriage return). -/
def isJsonWs (c : Char) : Bool := c == '\t' || c == '\n' || c == '\r' || c == ' '

def skipWs : List Char → List Char
  | c :: cs => if isJsonWs c then skipWs cs else c :: cs
  | [] => []

def isDigitChar (c : Char) : Bool := '0' ≤ c && c ≤ '9'

/-- Longest digit prefix and the remainder. -/
def spanDigits : List Char → List Char × List Char
  | [] => ([], [])
  | c :: cs =>
    if isDigitChar c then
      let p := spanDigits cs
      (c :: p.1, p.2)
    else ([], c :: cs)

/-- Numeric value of a digit string (most significant first). -/
def digitsVal (ds : List Char) : Nat :=
  ds.foldl (fun acc c => acc * 10 + (c.toNat - '0'.toNat)) 0

/-- Value of a hexadecimal digit character, if it is one (code points: the
decimal digits are 48–57, `a`–`f` are 97–102, `A`–`F` are 65–70). -/
def hexVal (c : Char) : Option Nat :=
  if 48 ≤ c.toNat ∧ c.toNat ≤ 57 then some (c.toNat - 48)
  else if 97 ≤ c.toNat ∧ c.toNat ≤ 102 then some (c.toNat - 87)
  else if 65 ≤ c.toNat ∧ c.toNat ≤ 70 then some (c.toNat - 55)
  else Option.none

/-- Two-character escapes accepted inside JSON strings. -/
def jsonUnescape (e : Char) : Option Char :=
  if e = 'n' then some '\n'
  else if e = 't' then some '\t'
  else if e = 'r' then some '\r'
  else if e = 'b' then some (Char.ofNat 8)
  else if e = 'f' then some (Char.ofNat 12)
  else if e = '"' ∨ e = '\\' ∨ e = '/' then some e
  else Option.none

/-- Body of a JSON string after the opening quote: characters up to the
closing quote, undoing escapes; raw control characters are rejected. -/
def parseStrBody (acc : List Char) : List Char → Option (String × List Char)
  | '"' :: rest => some (String.mk acc.reverse, rest)
  | '\\' :: 'u' :: h1 :: h2 :: (h3 :: h4 :: rest) =>
    match hexVal h1, hexVal h2, hexVal h3, hexVal h4 with
    | some v1, some v2, some v3, some v4 =>
      parseStrBody (Char.ofNat (((v1 * 16 + v2) * 16 + v3) * 16 + v4) :: acc) rest
    | _, _, _, _ => Option.none
  | '\\' :: e :: rest =>
    match jsonUnescape e with
    | some ch => parseStrBody (ch :: acc) rest
    | Option.none => Option.none
  | c :: rest =>
    if c.toNat < 0x20 then Option.none else parseStrBody (c :: acc) rest
  | [] => Option.none

/-- Integer literal: optional minus sign and a nonempty digit run.  (The model
has no floats; inputs with a fractional or exponent part fail at the
whole-input check, as noted in the module header.) -/
def parseIntLit (cs : List Char) : Option (Int × List Char) :=
  let neg := cs.head? == some '-'
  let (ds, r) := spanDigits (if neg then cs.tail else cs)
  if ds.isEmpty then Option.none
  else some (if neg then -(digitsVal ds : Int) else (digitsVal ds : Int), r)

mutual

/-- One JSON value, by recursive descent on a fuel counter. -/
def parseVal (fuel : Nat) (cs : List Char) : Option (PyVal × List Char) :=
  match fuel with
  | 0 => Option.none
  | fuel + 1 =>
    match skipWs cs with
    | 'f' :: ('a' :: 'l' :: 's' :: 'e' :: r) => some (PyVal.bool false, r)
    | 't' :: ('r' :: 'u' :: 'e' :: r) => some (PyVal.bool true, r)
    | 'n' :: ('u' :: 'l' :: 'l' :: r) => some (PyVal.none, r)
    | '"' :: r =>
      match parseStrBody [] r with
      | some (s, r') => some (.str s, r')
      | Option.none => Option.none
    | '[' :: r =>
      match skipWs r with
      | ']' :: r' => some (.list [], r')
      | r' =>
        match parseItems fuel r' with
        | some (xs, r'') => some (.list xs, r'')
        | Option.none => Option.none
    | '{' :: r =>
      match skipWs r with
      | '}' :: r' => some (.dict [], r')
      | r' =>
        match parseEntries fuel r' with
        | some (kvs, r'') => some (.dict kvs, r'')
        | Option.none => Option.none
    | c :: rest =>
      if c == '-' || isDigitChar c then
        match parseIntLit (c :: rest) with
        | some (n, r') => some (.int n, r')
        | Option.none => Option.none
      else Option.none
    | [] => Option.none

/-- One or more comma-separated array items and the closing bracket. -/
def parseItems (fuel : Nat) (cs : List Char) : Option (List PyVal × List Char) :=
  match fuel with
  | 0 => Option.none
  | fuel + 1 =>
    match parseVal fuel cs with
    | Option.none => Option.none
    | some (v, r) =>
      match skipWs r with
      | ',' :: r' =>
        match parseItems fuel (skipWs r') with
        | some (vs, r'') => some (v :: vs, r'')
        | Option.none => Option.none
      | ']' :: r' => some ([v], r')
      | _ => Option.none

/-- One or more comma-separated object entries and the closing brace. -/
def parseEntries (fuel : Nat) (cs : List Char) :
    Option (List (String × PyVal) × List Char) :=
  match fuel with
  | 0 => Option.none
  | fuel + 1 =>
    match skipWs cs with
    | '"' :: r =>
      match parseStrBody [] r with
      | Option.none => Option.none
      | some (k, r1) =>
        match skipWs r1 with
        | ':' :: r2 =>
          match parseVal fuel (skipWs r2) with
          | Option.none => Option.none
          | some (v, r3) =>
            match skipWs r3 with
            | ',' :: r4 =>
              match parseEntries fuel (skipWs r4) with
              | some (kvs, r5) => some ((k, v) :: kvs, r5)
              | Option.none => Option.none
            | '}' :: r4 => some ([(k, v)], r4)
            | _ => Option.none
        | _ => Option.none
    | _ => Option.none

end

/-- `json.loads`: parse one value and require only whitespace to follow
(Python raises "Extra data" otherwise, which the model maps to failure). -/
def loads (s : String) : Option PyVal :=
  match parseVal (s.length + 1) s.toList with
  | some (v, rest) => if (skipWs rest).isEmpty then some v else Option.none
  | Option.none => Option.none

/-! ## Round trip: `loads (dumps v) = some v`

The serialiser places a value directly before one of `,`, `]`, `}` or the
end of the input; `followerOk` captures those four contexts, which is what
the integer case needs to know where its digits stop. -/

def followerOk : List Char → Bool
  | [] => true
  | c :: _ => c == ',' || c == ']' || c == '}'

theorem skipWs_not_ws {c : Char} (h : isJsonWs c = false) (t : List Char) :
    skipWs (c :: t) = c :: t := by
  simp [skipWs, h]

theorem skipWs_space (t : List Char) : skipWs (' ' :: t) = skipWs t := by
  simp [skipWs, isJsonWs]

theorem digitChar_bounds {c : Char} (h : isDigitChar c = true) :
    48 ≤ c.toNat ∧ c.toNat ≤ 57 := by
  simp only [isDigitChar, Bool.and_eq_true, decide_eq_true_eq] at h
  exact ⟨h.1, h.2⟩

theorem digitChar_of_val (k : Nat) (hk : k < 10) :
    isDigitChar (decDigit k) = true ∧ (decDigit k).toNat - '0'.toNat = k := by
  interval_cases k <;> exact ⟨by decide, by decide⟩

theorem natDecChars_shift (n : Nat) :
    ∀ tail : List Char, natDecChars n tail = natDecChars n [] ++ tail := by
  induction n using Nat.strongRecOn with
  | ind n ih =>
    intro tail
    rw [natDecChars.eq_def n tail, natDecChars.eq_def n []]
    rcases Nat.lt_or_ge n 10 with h | h
    · simp [h]
    · have h' : ¬ n < 10 := by omega
      rw [if_neg h', if_neg h', ih (n / 10) (by omega), ih (n / 10) (by omega) [_]]
      simp

theorem natDecChars_split (n : Nat) :
    natDecChars n []
      = (if n < 10 then [] else natDecChars (n / 10) []) ++ [decDigit (n % 10)] := by
  rw [natDecChars.eq_def]
  by_cases h : n < 10
  · simp [h]
  · simp only [if_neg h]
    exact natDecChars_shift (n / 10) [_]

theorem natDecChars_ne_nil (n : Nat) : natDecChars n [] ≠ [] := by
  rw [natDecChars_split]; simp

theorem natDecChars_digits (n : Nat) :
    ∀ c ∈ natDecChars n [], isDigitChar c = true := by
  induction n using Nat.strongRecOn with
  | ind n ih =>
    rw [natDecChars_split]
    intro c hc
    rcases List.mem_append.mp hc with h | h
    · rcases Nat.lt_or_ge n 10 with h10 | h10
      · rw [if_pos h10] at h; cases h
      · rw [if_neg (by omega : ¬ n < 10)] at h
        exact ih (n / 10) (by omega) c h
    · rw [List.mem_singleton] at h
      subst h
      exact (digitChar_of_val (n % 10) (Nat.mod_lt _ (by omega))).1

theorem digitsVal_natDecChars (n : Nat) : digitsVal (natDecChars n []) = n := by
  induction n using Nat.strongRecOn with
  | ind n ih =>
    rw [natDecChars_split]
    by_cases h : n < 10
    · simp only [if_pos h, List.nil_append, digitsVal, List.foldl_cons, List.foldl_nil]
      rw [(digitChar_of_val (n % 10) (Nat.mod_lt _ (by omega))).2]
      omega
    · simp only [if_neg h, digitsVal, List.foldl_append, List.foldl_cons, List.foldl_nil]
      have := ih (n / 10) (by omega)
      rw [digitsVal] at this
      rw [this, (digitChar_of_val (n % 10) (Nat.mod_lt _ (by omega))).2]
      omega

theorem spanDigits_not_digit {c : Char} (h : isDigitChar c = false) (t : List Char) :
    spanDigits (c :: t) = ([], c :: t) := by
  simp [spanDigits, h]

theorem followerOk_not_digit {cs : List Char} (h : followerOk cs = true) :
    spanDigits cs = ([], cs) := by
  cases cs with
  | nil => rfl
  | cons c t =>
    refine spanDigits_not_digit ?_ t
    simp only [followerOk, Bool.or_eq_true, beq_iff_eq] at h
    rcases h with (h | h) | h <;> subst h <;> decide

theorem spanDigits_run (ds : List Char) (hds : ∀ c ∈ ds, isDigitChar c = true)
    (rest : List Char) (hrest : spanDigits rest = ([], rest)) :
    spanDigits (ds ++ rest) = (ds, rest) := by
  induction ds with
  | nil => simpa only [List.nil_append] using hrest
  | cons d t ih =>
    have hd : isDigitChar d = true := hds d (List.mem_cons_self ..)
    have htt : spanDigits (t ++ rest) = (t, rest) :=
      ih fun x hx => hds x (List.mem_cons_of_mem d hx)
    simp [spanDigits, hd, htt]

theorem natDecChars_head (m : Nat) :
    ∃ c t, natDecChars m [] = c :: t ∧ isDigitChar c = true := by
  match h : natDecChars m [] with
  | [] => exact absurd h (natDecChars_ne_nil m)
  | c :: t => exact ⟨c, t, rfl, natDecChars_digits m c (h ▸ List.mem_cons_self ..)⟩

theorem digitChar_ne_minus {c : Char} (h : isDigitChar c = true) : c ≠ '-' := by
  intro heq; subst heq; revert h; decide

/-- Parsing a rendered integer recovers it, whenever the remainder starts
with a delimiter (so the digit run stops exactly at the boundary). -/
theorem parseIntLit_cons_minus (t : List Char) :
    parseIntLit ('-' :: t)
      = (let (ds, r) := spanDigits t;
         if ds.isEmpty then Option.none else some (-(digitsVal ds : Int), r)) := by
  simp [parseIntLit]

theorem parseIntLit_cons_digit {c : Char} (t : List Char) (h : c ≠ '-') :
    parseIntLit (c :: t)
      = (let (ds, r) := spanDigits (c :: t);
         if ds.isEmpty then Option.none else some ((digitsVal ds : Int), r)) := by
  simp [parseIntLit, h]

theorem parseIntLit_inv (i : Int) (rest : List Char) (hr : followerOk rest = true) :
    parseIntLit (intDecChars i ++ rest) = some (i, rest) := by
  obtain ⟨c0, t0, h0, hc0⟩ := natDecChars_head i.natAbs
  have hspan : spanDigits (natDecChars i.natAbs [] ++ rest) = (natDecChars i.natAbs [], rest) :=
    spanDigits_run _ (natDecChars_digits _) _ (followerOk_not_digit hr)
  have hne : ¬ (natDecChars i.natAbs []).isEmpty = true := by
    simpa using natDecChars_ne_nil i.natAbs
  by_cases hneg : i < 0
  · have harg : intDecChars i ++ rest = '-' :: (natDecChars i.natAbs [] ++ rest) := by
      simp [intDecChars, hneg]
    rw [harg, parseIntLit_cons_minus, hspan]
    simp only [if_neg hne, digitsVal_natDecChars, Option.some.injEq, Prod.mk.injEq, and_true]
    omega
  · have harg : intDecChars i ++ rest = c0 :: (t0 ++ rest) := by
      simp [intDecChars, hneg, h0]
    have hspan' : spanDigits (c0 :: (t0 ++ rest)) = (c0 :: t0, rest) := by
      rw [← List.cons_append, ← h0]; exact hspan
    rw [harg, parseIntLit_cons_digit _ (digitChar_ne_minus hc0), hspan']
    have hne' : ¬ (c0 :: t0).isEmpty = true := by simp
    have hdv : digitsVal (c0 :: t0) = i.natAbs := by
      rw [← h0, digitsVal_natDecChars]
    simp only [if_neg hne', hdv, Option.some.injEq, Prod.mk.injEq, and_true]
    omega

theorem hexVal_hexDigitChar (d : Nat) (h : d < 16) : hexVal (hexDigitChar d) = some d := by
  interval_cases d <;> decide

/-- Consuming one escaped character from the string body undoes the escape. -/
theorem parseStrBody_escape (c : Char) (acc rest : List Char) :
    parseStrBody acc (jsonEscapeChar c ++ rest) = parseStrBody (c :: acc) rest := by
  by_cases hq : c = '"'
  · subst hq; rfl
  by_cases hb : c = '\\'
  · subst hb; rfl
  by_cases hn : c = '\n'
  · subst hn; rfl
  by_cases ht : c = '\t'
  · subst ht; rfl
  by_cases hr : c = '\r'
  · subst hr; rfl
  have hqb : ¬ (c = '"' ∨ c = '\\') := by tauto
  unfold jsonEscapeChar
  rw [if_neg hqb, if_neg hn, if_neg ht, if_neg hr]
  rcases Nat.lt_or_ge c.toNat 32 with hlt | hge
  · rw [if_neg (by omega), List.cons_append]
    have hdiv : c.toNat / 16 < 16 := by omega
    have hmod : c.toNat % 16 < 16 := Nat.mod_lt _ (by omega)
    have h0 : hexVal '0' = some 0 := by decide
    simp only [List.cons_append, List.singleton_append, parseStrBody, h0,
      hexVal_hexDigitChar _ hdiv, hexVal_hexDigitChar _ hmod]
    rw [show ((0 * 16 + 0) * 16 + c.toNat / 16) * 16 + c.toNat % 16 = c.toNat by omega]
    rw [Char.ofNat_toNat]
    rfl
  · rw [if_pos hge, List.singleton_append, parseStrBody.eq_def]
    have hne : ¬ c.toNat < 0x20 := by omega
    simp [hq, hb, hne]

/-- Consuming a whole escaped body stops exactly at the closing quote. -/
theorem parseStrBody_flat (cs : List Char) : ∀ (acc rest : List Char),
    parseStrBody acc (cs.flatMap jsonEscapeChar ++ '"' :: rest)
      = some (String.mk (acc.reverse ++ cs), rest) := by
  induction cs with
  | nil =>
    intro acc rest
    simp only [List.flatMap_nil, List.nil_append, parseStrBody, List.append_nil]
  | cons c cs ih =>
    intro acc rest
    rw [List.flatMap_cons, List.append_assoc, parseStrBody_escape, ih]
    simp

/-- The string codec round trip. -/
theorem parseStrBody_inv (s : String) (rest : List Char) :
    parseStrBody [] (jsonEscapeBody s ++ '"' :: rest) = some (s, rest) := by
  rw [jsonEscapeBody, parseStrBody_flat]
  simp

theorem digitChar_plain {c : Char} (h : isDigitChar c = true) :
    isJsonWs c = false ∧ c ≠ ']' ∧ c ≠ '}' := by
  obtain ⟨h1, h2⟩ := digitChar_bounds h
  have hne : ∀ k : Char, k.toNat < 48 ∨ 57 < k.toNat → c ≠ k := by
    rintro k hk rfl
    rcases hk with hk | hk <;> omega
  refine ⟨?_, hne _ (by decide), hne _ (by decide)⟩
  simp only [isJsonWs, Bool.or_eq_false_iff, beq_eq_false_iff_ne]
  exact ⟨⟨⟨hne _ (by decide), hne _ (by decide)⟩, hne _ (by decide)⟩, hne _ (by decide)⟩

theorem digitChar_not_kw {c : Char} (h : isDigitChar c = true) :
    c ≠ '"' ∧ c ≠ '[' ∧ c ≠ '{' ∧ c ≠ 'n' ∧ c ≠ 't' ∧ c ≠ 'f' := by
  obtain ⟨h1, h2⟩ := digitChar_bounds h
  constructor
  · intro heq; subst heq; exact absurd h1 (by decide)
  constructor
  · intro heq; subst heq; exact absurd h2 (by decide)
  refine ⟨?_, ?_, ?_, ?_⟩ <;>
    (intro heq; subst heq; first
      | exact absurd h1 (by decide)
      | exact absurd h2 (by decide))

/-- `plainHead c` decides the conjunction of head-character conditions the
round-trip argument needs: `c` is not whitespace and closes no bracket. -/
def plainHead (c : Char) : Bool :=
  !(isJsonWs c) && !(c == ']') && !(c == '}')

theorem plainHead_elim {c : Char} (h : plainHead c = true) :
    isJsonWs c = false ∧ c ≠ ']' ∧ c ≠ '}' := by
  simp only [plainHead, Bool.and_eq_true, Bool.not_eq_true', beq_eq_false_iff_ne] at h
  exact ⟨h.1.1, h.1.2, h.2⟩

/-- Every serialised value starts with a character that is not whitespace and
closes neither a list nor a dict. -/
theorem dumpChars_head (v : PyVal) :
    ∃ c t, dumpChars v = c :: t ∧ isJsonWs c = false ∧ c ≠ ']' ∧ c ≠ '}' := by
  cases v with
  | int n =>
    by_cases hneg : n < 0
    · refine ⟨'-', natDecChars n.natAbs [], ?_, plainHead_elim rfl⟩
      simp [dumpChars, intDecChars, hneg]
    · obtain ⟨c0, t0, h0, hc0⟩ := natDecChars_head n.natAbs
      refine ⟨c0, t0, ?_, digitChar_plain hc0⟩
      simp [dumpChars, intDecChars, hneg, h0]
  | bool b =>
    cases b
    case false => exact ⟨'f', _, rfl, plainHead_elim rfl⟩
    case true => exact ⟨'t', _, rfl, plainHead_elim rfl⟩
  | none => exact ⟨'n', _, rfl, plainHead_elim rfl⟩
  | str s => exact ⟨'"', _, rfl, plainHead_elim rfl⟩
  | list xs => exact ⟨'[', _, rfl, plainHead_elim rfl⟩
  | dict kvs => exact ⟨'{', _, rfl, plainHead_elim rfl⟩

/-- Leading whitespace removal is the identity on serialised output. -/
theorem skipWs_dump (v : PyVal) (x : List Char) :
    skipWs (dumpChars v ++ x) = dumpChars v ++ x := by
  obtain ⟨c, t, hren, hws, _, _⟩ := dumpChars_head v
  rw [hren, List.cons_append, skipWs_not_ws hws]

theorem dumpItems_cons_cons (x y : PyVal) (ys : List PyVal) :
    dumpItems (x :: y :: ys) = dumpChars x ++ ',' :: ' ' :: dumpItems (y :: ys) := by
  simp [dumpItems, dumpItemsTail]

theorem dumpEntries_cons_cons (a b : String × PyVal) (ms : List (String × PyVal)) :
    dumpEntries (a :: b :: ms) = '"' :: (jsonEscapeBody a.1
      ++ '"' :: ':' :: ' ' :: (dumpChars a.2 ++ ',' :: ' ' :: dumpEntries (b :: ms))) := by
  obtain ⟨k, v⟩ := a
  obtain ⟨l, w⟩ := b
  simp [dumpEntries, dumpEntriesTail]

theorem skipWs_dumpItems (x : PyVal) (xs : List PyVal) (r : List Char) :
    skipWs (dumpItems (x :: xs) ++ r) = dumpItems (x :: xs) ++ r := by
  simp only [dumpItems, List.append_assoc]
  exact skipWs_dump x _

theorem skipWs_dumpEntries (a : String × PyVal) (ms : List (String × PyVal)) (r : List Char) :
    skipWs (dumpEntries (a :: ms) ++ r) = dumpEntries (a :: ms) ++ r := by
  obtain ⟨k, v⟩ := a
  cases ms with
  | nil => simp only [dumpEntries, List.cons_append]; exact skipWs_not_ws (by decide) _
  | cons b ms =>
    rw [dumpEntries_cons_cons]
    simp only [List.cons_append]
    exact skipWs_not_ws (by decide) _

/-- In the catch-all branch of `parseVal`, a number-initial character reaches
`parseIntLit`. -/
theorem parseVal_succ_num (fuel : Nat) {c : Char} (t : List Char)
    (hws : isJsonWs c = false)
    (hn : c ≠ 'n') (ht : c ≠ 't') (hf : c ≠ 'f') (hq : c ≠ '"')
    (hl : c ≠ '[') (hb : c ≠ '{')
    (hg : (c == '-' || isDigitChar c) = true) :
    parseVal (fuel + 1) (c :: t)
      = (match parseIntLit (c :: t) with
         | some (n, r) => some (.int n, r)
         | Option.none => Option.none) := by
  simp only [parseVal]
  rw [skipWs_not_ws hws]
  simp [hn, ht, hf, hq, hl, hb, hg]

/-- The list branch of `parseVal` reduces to wrapping `parseItems` when the
body does not immediately close. -/
theorem parseVal_succ_list (x : PyVal) (xs : List PyVal) (fuel : Nat) (rest : List Char) :
    parseVal (fuel + 1) ('[' :: (dumpItems (x :: xs) ++ ']' :: rest))
      = (match parseItems fuel (dumpItems (x :: xs) ++ ']' :: rest) with
         | some (vs, r) => some (.list vs, r)
         | Option.none => Option.none) := by
  obtain ⟨c, t, hx, hws, hbr, _⟩ := dumpChars_head x
  have hcons : dumpItems (x :: xs) ++ ']' :: rest = c :: (t ++ dumpItemsTail xs ++ ']' :: rest) := by
    simp only [dumpItems, hx, List.cons_append, List.append_assoc]
  have step : parseVal (fuel + 1) ('[' :: (dumpItems (x :: xs) ++ ']' :: rest))
      = (match skipWs (dumpItems (x :: xs) ++ ']' :: rest) with
         | ']' :: r' => some (.list [], r')
         | r' =>
           match parseItems fuel r' with
           | some (vs, r'') => some (.list vs, r'')
           | Option.none => Option.none) := rfl
  rw [step, skipWs_dumpItems, hcons]
  simp only [← hcons]
  split
  · rename_i heq
    rw [hcons] at heq
    exact absurd (List.cons.inj heq).1 hbr
  · rfl

/-- The dict branch of `parseVal` reduces to wrapping `parseEntries` when the
body does not immediately close. -/
theorem parseVal_succ_dict (a : String × PyVal) (ms : List (String × PyVal))
    (fuel : Nat) (rest : List Char) :
    parseVal (fuel + 1) ('{' :: (dumpEntries (a :: ms) ++ '}' :: rest))
      = (match parseEntries fuel (dumpEntries (a :: ms) ++ '}' :: rest) with
         | some (kvs, r) => some (.dict kvs, r)
         | Option.none => Option.none) := by
  have hhead : ∃ t0, dumpEntries (a :: ms) = '"' :: t0 := by
    obtain ⟨k, v⟩ := a
    cases ms with
    | nil => exact ⟨_, rfl⟩
    | cons b ms => exact ⟨_, dumpEntries_cons_cons (k, v) b ms⟩
  obtain ⟨t0, ht0⟩ := hhead
  have ht : dumpEntries (a :: ms) ++ '}' :: rest = '"' :: (t0 ++ '}' :: rest) := by
    rw [ht0, List.cons_append]
  have step : parseVal (fuel + 1) ('{' :: (dumpEntries (a :: ms) ++ '}' :: rest))
      = (match skipWs (dumpEntries (a :: ms) ++ '}' :: rest) with
         | '}' :: r' => some (.dict [], r')
         | r' =>
           match parseEntries fuel r' with
           | some (kvs, r'') => some (.dict kvs, r'')
           | Option.none => Option.none) := rfl
  rw [step, skipWs_dumpEntries, ht]
  simp only [← ht]
  split
  · rename_i heq
    rw [ht] at heq
    exact absurd (List.cons.inj heq).1 (by decide)
  · rfl

theorem dumpItems_singleton (x : PyVal) : dumpItems [x] = dumpChars x := by
  simp [dumpItems, dumpItemsTail]

theorem dumpEntries_singleton (k : String) (v : PyVal) :
    dumpEntries [(k, v)] = '"' :: (jsonEscapeBody k ++ '"' :: ':' :: ' ' :: dumpChars v) := by
  simp [dumpEntries, dumpEntriesTail]

theorem parseItems_succ (f : Nat) (cs : List Char) :
    parseItems (f + 1) cs
      = (match parseVal f cs with
         | Option.none => Option.none
         | some (v, r) =>
           match skipWs r with
           | ',' :: r' =>
             match parseItems f (skipWs r') with
             | some (vs, r'') => some (v :: vs, r'')
             | Option.none => Option.none
           | ']' :: r' => some ([v], r')
           | _ => Option.none) := rfl

theorem parseEntries_succ (f : Nat) (cs : List Char) :
    parseEntries (f + 1) cs
      = (match skipWs cs with
         | '"' :: r =>
           match parseStrBody [] r with
           | Option.none => Option.none
           | some (k, r1) =>
             match skipWs r1 with
             | ':' :: r2 =>
               match parseVal f (skipWs r2) with
               | Option.none => Option.none
               | some (v, r3) =>
                 match skipWs r3 with
                 | ',' :: r4 =>
                   match parseEntries f (skipWs r4) with
                   | some (kvs, r5) => some ((k, v) :: kvs, r5)
                   | Option.none => Option.none
                 | '}' :: r4 => some ([(k, v)], r4)
                 | _ => Option.none
             | _ => Option.none
         | _ => Option.none) := rfl

mutual

/-- Parsing a serialised value recovers it, leaving the remainder untouched,
whenever the remainder starts with a delimiter and the fuel exceeds the
serialised length. -/
theorem parse_dump : ∀ (v : PyVal) (fuel : Nat) (rest : List Char),
    (dumpChars v).length < fuel → followerOk rest = true →
    parseVal fuel (dumpChars v ++ rest) = some (v, rest)
  | .none, fuel, rest, hf, _ => by
    cases fuel with
    | zero => omega
    | succ f => simp [dumpChars, parseVal, skipWs, isJsonWs]
  | .bool b, fuel, rest, hf, _ => by
    cases fuel with
    | zero => omega
    | succ f => cases b <;> simp [dumpChars, parseVal, skipWs, isJsonWs]
  | .int n, fuel, rest, hf, hr => by
    cases fuel with
    | zero => omega
    | succ f =>
      by_cases hneg : n < 0
      · have harg : dumpChars (.int n) ++ rest = '-' :: (natDecChars n.natAbs [] ++ rest) := by
          simp [dumpChars, intDecChars, hneg]
        obtain ⟨m1, m2, m3, m4, m5, m6, m7, m8⟩ :
            isJsonWs '-' = false ∧ '-' ≠ 'n' ∧ '-' ≠ 't' ∧ '-' ≠ 'f' ∧ '-' ≠ '"' ∧
              '-' ≠ '[' ∧ '-' ≠ '{' ∧ ('-' == '-' || isDigitChar '-') = true := by decide
        rw [harg, parseVal_succ_num f _ m1 m2 m3 m4 m5 m6 m7 m8, ← harg]
        show (match parseIntLit (dumpChars (.int n) ++ rest) with
              | some (m, r) => some (PyVal.int m, r)
              | Option.none => Option.none) = some (.int n, rest)
        rw [show dumpChars (.int n) = intDecChars n from rfl, parseIntLit_inv n rest hr]
      · obtain ⟨c0, t0, h0, hc0⟩ := natDecChars_head n.natAbs
        obtain ⟨hws, _, _⟩ := digitChar_plain hc0
        obtain ⟨hq, hl, hb, hn, ht, hfc⟩ := digitChar_not_kw hc0
        have harg : dumpChars (.int n) ++ rest = c0 :: (t0 ++ rest) := by
          simp [dumpChars, intDecChars, hneg, h0]
        rw [harg, parseVal_succ_num f _ hws hn ht hfc hq hl hb (by simp [hc0]), ← harg]
        show (match parseIntLit (dumpChars (.int n) ++ rest) with
              | some (m, r) => some (PyVal.int m, r)
              | Option.none => Option.none) = some (.int n, rest)
        rw [show dumpChars (.int n) = intDecChars n from rfl, parseIntLit_inv n rest hr]
  | .str s, fuel, rest, hf, _ => by
    cases fuel with
    | zero => omega
    | succ f =>
      have harg : dumpChars (.str s) ++ rest = '"' :: (jsonEscapeBody s ++ '"' :: rest) := by
        simp [dumpChars]
      rw [harg]
      simp only [parseVal]
      rw [skipWs_not_ws (by decide)]
      simp [parseStrBody_inv]
  | .list [], fuel, rest, hf, _ => by
    cases fuel with
    | zero => omega
    | succ f =>
      have harg : dumpChars (.list []) ++ rest = '[' :: ']' :: rest := by
        simp [dumpChars, dumpItems]
      rw [harg]
      simp only [parseVal]
      rw [skipWs_not_ws (by decide)]
      simp [skipWs, isJsonWs]
  | .list (x :: xs), fuel, rest, hf, _ => by
    cases fuel with
    | zero => omega
    | succ f =>
      have hlen : (dumpChars (.list (x :: xs))).length
          = (dumpItems (x :: xs)).length + 2 := by
        simp [dumpChars]
      have hfi : (dumpItems (x :: xs)).length + 1 < f := by omega
      have harg : dumpChars (.list (x :: xs)) ++ rest
          = '[' :: (dumpItems (x :: xs) ++ ']' :: rest) := by
        simp [dumpChars]
      rw [harg, parseVal_succ_list x xs f rest, parse_dumpItems x xs f rest hfi]
  | .dict [], fuel, rest, hf, _ => by
    cases fuel with
    | zero => omega
    | succ f =>
      have harg : dumpChars (.dict []) ++ rest = '{' :: '}' :: rest := by
        simp [dumpChars, dumpEntries]
      rw [harg]
      simp only [parseVal]
      rw [skipWs_not_ws (by decide)]
      simp [skipWs, isJsonWs]
  | .dict (a :: ms), fuel, rest, hf, _ => by
    cases fuel with
    | zero => omega
    | succ f =>
      have hlen : (dumpChars (.dict (a :: ms))).length
          = (dumpEntries (a :: ms)).length + 2 := by
        simp [dumpChars]
      have hfe : (dumpEntries (a :: ms)).length + 1 < f := by omega
      have harg : dumpChars (.dict (a :: ms)) ++ rest
          = '{' :: (dumpEntries (a :: ms) ++ '}' :: rest) := by
        simp [dumpChars]
      rw [harg, parseVal_succ_dict a ms f rest, parse_dumpEntries a ms f rest hfe]
termination_by v _ _ _ _ => sizeOf v
decreasing_by all_goals (simp_wf <;> omega)

theorem parse_dumpItems : ∀ (x : PyVal) (xs : List PyVal) (fuel : Nat) (rest : List Char),
    (dumpItems (x :: xs)).length + 1 < fuel →
    parseItems fuel (dumpItems (x :: xs) ++ ']' :: rest) = some (x :: xs, rest)
  | x, [], fuel, rest, hf => by
    cases fuel with
    | zero => omega
    | succ f =>
      rw [dumpItems_singleton] at hf ⊢
      have hv := parse_dump x f (']' :: rest) (by omega) rfl
      rw [parseItems_succ, hv]
      simp [skipWs, isJsonWs]
  | x, y :: ys, fuel, rest, hf => by
    cases fuel with
    | zero => omega
    | succ f =>
      rw [dumpItems_cons_cons] at hf ⊢
      simp only [List.length_append, List.length_cons] at hf
      have hfx : (dumpChars x).length < f := by omega
      have hfy : (dumpItems (y :: ys)).length + 1 < f := by omega
      have harg : (dumpChars x ++ ',' :: ' ' :: dumpItems (y :: ys)) ++ ']' :: rest
          = dumpChars x ++ (',' :: ' ' :: (dumpItems (y :: ys) ++ ']' :: rest)) := by
        simp
      have hv := parse_dump x f (',' :: ' ' :: (dumpItems (y :: ys) ++ ']' :: rest))
        hfx rfl
      have hrec := parse_dumpItems y ys f rest hfy
      rw [harg, parseItems_succ, hv]
      simp [skipWs, isJsonWs, skipWs_dumpItems, hrec]
termination_by x xs _ _ _ => sizeOf x + sizeOf xs
decreasing_by all_goals (simp_wf <;> omega)

theorem parse_dumpEntries : ∀ (a : String × PyVal) (ms : List (String × PyVal))
    (fuel : Nat) (rest : List Char),
    (dumpEntries (a :: ms)).length + 1 < fuel →
    parseEntries fuel (dumpEntries (a :: ms) ++ '}' :: rest) = some (a :: ms, rest)
  | (k, v), [], fuel, rest, hf => by
    cases fuel with
    | zero => omega
    | succ f =>
      rw [dumpEntries_singleton] at hf ⊢
      simp only [List.length_cons, List.length_append] at hf
      have hfv : (dumpChars v).length < f := by omega
      have harg : ('"' :: (jsonEscapeBody k ++ '"' :: ':' :: ' ' :: dumpChars v)) ++ '}' :: rest
          = '"' :: (jsonEscapeBody k ++ '"' :: (':' :: ' ' :: (dumpChars v ++ '}' :: rest))) := by
        simp
      have hv := parse_dump v f ('}' :: rest) hfv rfl
      rw [harg, parseEntries_succ]
      simp [skipWs, isJsonWs, parseStrBody_inv, skipWs_dump, hv]
  | (k, v), (k2, v2) :: ms, fuel, rest, hf => by
    cases fuel with
    | zero => omega
    | succ f =>
      rw [dumpEntries_cons_cons] at hf ⊢
      simp only [List.length_cons, List.length_append] at hf
      have hfv : (dumpChars v).length < f := by omega
      have hfm : (dumpEntries ((k2, v2) :: ms)).length + 1 < f := by omega
      have harg : ('"' :: (jsonEscapeBody k
            ++ '"' :: ':' :: ' ' :: (dumpChars v ++ ',' :: ' ' :: dumpEntries ((k2, v2) :: ms))))
            ++ '}' :: rest
          = '"' :: (jsonEscapeBody k ++ '"' :: (':' :: ' ' :: (dumpChars v
            ++ (',' :: ' ' :: (dumpEntries ((k2, v2) :: ms) ++ '}' :: rest))))) := by
        simp
      have hv := parse_dump v f (',' :: ' ' :: (dumpEntries ((k2, v2) :: ms) ++ '}' :: rest))
        hfv rfl
      have hrec' : parseEntries f ('"' :: (jsonEscapeBody k2
            ++ '"' :: ':' :: ' ' :: (dumpChars v2 ++ (dumpEntriesTail ms ++ '}' :: rest))))
          = some ((k2, v2) :: ms, rest) := by
        have harg2 : dumpEntries ((k2, v2) :: ms) ++ '}' :: rest
            = '"' :: (jsonEscapeBody k2
                ++ '"' :: ':' :: ' ' :: (dumpChars v2 ++ (dumpEntriesTail ms ++ '}' :: rest))) := by
          simp [dumpEntries]
        rw [← harg2]
        exact parse_dumpEntries (k2, v2) ms f rest hfm
      rw [harg, parseEntries_succ]
      simp [skipWs, isJsonWs, parseStrBody_inv, skipWs_dump, skipWs_dumpEntries, hv, hrec']
termination_by a ms _ _ _ => sizeOf a + sizeOf ms
decreasing_by all_goals (simp_wf <;> omega)

end

/-- The `json` codec round trip: every value the mapper serialises parses back
to itself. -/
theorem loads_dumps (v : PyVal) : loads (dumps v) = some v := by
  have htl : (dumps v).toList = dumpChars v := rfl
  have hlen : (dumps v).length = (dumpChars v).length := rfl
  have h := parse_dump v ((dumpChars v).length + 1) [] (by omega) rfl
  rw [List.append_nil] at h
  rw [loads, htl, hlen, h]
  rfl

/-! ## `ast.literal_eval`

A model of the standard-library literal parser as the mapper uses it: Python
literals built from `None`/`True`/`False`, integers, single- or double-quoted
strings, lists and string-keyed dicts.  (Tuples, sets, floats and exotic
escapes are outside what any claim exercises; inputs using them fail here,
which the mapper treats the same as a raised `ValueError`.) -/

def litUnescape : Char → Option Char
  | '\'' => some '\''
  | '"' => some '"'
  | '\\' => some '\\'
  | 'n' => some '\n'
  | 't' => some '\t'
  | 'r' => some '\r'
  | _ => Option.none

/-- Body of a quoted Python string literal with quote character `q`. -/
def parseLitStrBody (q : Char) (acc : List Char) : List Char → Option (String × List Char)
  | [] => Option.none
  | '\\' :: e :: rest =>
    match litUnescape e with
    | some ch => parseLitStrBody q (ch :: acc) rest
    | Option.none => Option.none
  | c :: rest =>
    if c = q then some (String.mk acc.reverse, rest)
    else parseLitStrBody q (c :: acc) rest

mutual

def parseLit (fuel : Nat) (cs : List Char) : Option (PyVal × List Char) :=
  match fuel with
  | 0 => Option.none
  | fuel + 1 =>
    match skipWs cs with
    | 'N' :: 'o' :: 'n' :: 'e' :: r => some (.none, r)
    | 'T' :: 'r' :: 'u' :: 'e' :: r => some (.bool true, r)
    | 'F' :: 'a' :: 'l' :: 's' :: 'e' :: r => some (.bool false, r)
    | '\'' :: r =>
      match parseLitStrBody '\'' [] r with
      | some (s, r') => some (.str s, r')
      | Option.none => Option.none
    | '"' :: r =>
      match parseLitStrBody '"' [] r with
      | some (s, r') => some (.str s, r')
      | Option.none => Option.none
    | '[' :: r =>
      match skipWs r with
      | ']' :: r' => some (.list [], r')
      | r' =>
        match parseLitItems fuel r' with
        | some (xs, r'') => some (.list xs, r'')
        | Option.none => Option.none
    | '{' :: r =>
      match skipWs r with
      | '}' :: r' => some (.dict [], r')
      | r' =>
        match parseLitEntries fuel r' with
        | some (kvs, r'') => some (.dict kvs, r'')
        | Option.none => Option.none
    | c :: rest =>
      if c == '-' || isDigitChar c then
        match parseIntLit (c :: rest) with
        | some (n, r') => some (.int n, r')
        | Option.none => Option.none
      else Option.none
    | [] => Option.none

def parseLitItems (fuel : Nat) (cs : List Char) : Option (List PyVal × List Char) :=
  match fuel with
  | 0 => Option.none
  | fuel + 1 =>
    match parseLit fuel cs with
    | Option.none => Option.none
    | some (v, r) =>
      match skipWs r with
      | ',' :: r' =>
        match parseLitItems fuel (skipWs r') with
        | some (vs, r'') => some (v :: vs, r'')
        | Option.none => Option.none
      | ']' :: r' => some ([v], r')
      | _ => Option.none

def parseLitEntries (fuel : Nat) (cs : List Char) :
    Option (List (String × PyVal) × List Char) :=
  match fuel with
  | 0 => Option.none
  | fuel + 1 =>
    match skipWs cs with
    | '\'' :: r => parseLitEntriesAfterKey fuel (parseLitStrBody '\'' [] r)
    | '"' :: r => parseLitEntriesAfterKey fuel (parseLitStrBody '"' [] r)
    | _ => Option.none

def parseLitEntriesAfterKey (fuel : Nat) :
    Option (String × List Char) → Option (List (String × PyVal) × List Char)
  | Option.none => Option.none
  | some (k, r1) =>
    match skipWs r1 with
    | ':' :: r2 =>
      match parseLit fuel (skipWs r2) with
      | Option.none => Option.none
      | some (v, r3) =>
        match skipWs r3 with
        | ',' :: r4 =>
          match parseLitEntries fuel (skipWs r4) with
          | some (kvs, r5) => some ((k, v) :: kvs, r5)
          | Option.none => Option.none
        | '}' :: r4 => some ([(k, v)], r4)
        | _ => Option.none
    | _ => Option.none

end

/-- `ast.literal_eval`, full-input. -/
def literal_eval (s : String) : Option PyVal :=
  match parseLit (s.length + 1) s.toList with
  | some (v, rest) => if (skipWs rest).isEmpty then some v else Option.none
  | Option.none => Option.none

/-! ## The response mapper (src/backend/analysis/mappers.py, `openai_mapper`)

`mapperParse` is the front end (lines 12-46): a non-string passes through; a
string goes through `json.loads`, then a scan of every suffix starting at a
brace, then `ast.literal_eval`, then a literal scan of the brace suffixes,
and finally falls back to the original string.  A successful
`ast.literal_eval` that yields `None` reaches the mapper's final
`if parsed is None` check and is replaced by the original string, which the
model mirrors. -/

/-- Suffixes of the character list that begin at a left-brace character, in
order of starting position: the candidates the mapper's scan loop feeds back
to the parser. -/
def braceSuffixes : List Char → List (List Char)
  | [] => []
  | c :: rest =>
    if c = '{' then (c :: rest) :: braceSuffixes rest else braceSuffixes rest

/-- First suffix that a given parser accepts, scanning left to right. -/
def firstParse (f : String → Option PyVal) : List (List Char) → Option PyVal
  | [] => Option.none
  | cand :: more =>
    match f (String.mk cand) with
    | some v => some v
    | Option.none => firstParse f more

def scanJson (s : String) : Option PyVal := firstParse loads (braceSuffixes s.toList)

def scanLit (s : String) : Option PyVal := firstParse literal_eval (braceSuffixes s.toList)

/-- The mapper front end, lines 12-46 of mappers.py. -/
def mapperParse : PyVal → PyVal
  | .str s =>
    match loads s with
    | some v => v
    | Option.none =>
      match scanJson s with
      | some v => v
      | Option.none =>
        match literal_eval s with
        | some v => if v = .none then .str s else v
        | Option.none =>
          match scanLit s with
          | some v => v
          | Option.none => .str s
  | v => v

/-- Field read on a dict value (`d.get(key)` after an `isinstance` guard). -/
def PyVal.getKey : PyVal → String → PyVal
  | .dict kvs, key => PyVal.get kvs key
  | _, _ => .none

/-- The extraction half of the mapper (lines 48-100): token counts from the
first `usage` found, assistant content from the first `choices` found, and
the canonical `analysis_output` string. -/
def mapperExtract (parsed : PyVal) : List (String × PyVal) :=
  let usage := if parsed.isDict then find_key "usage" parsed else .none
  let tokensOn := usage.truthy && usage.isDict
  let input_tokens := if tokensOn then usage.getKey "prompt_tokens" else .none
  let output_tokens :=
    if tokensOn then PyVal.pyOr (usage.getKey "completion_tokens") (usage.getKey "output_tokens")
    else .none
  let total_tokens := if tokensOn then usage.getKey "total_tokens" else .none
  let choices := if parsed.isDict then find_key "choices" parsed else .none
  let analysed_review :=
    match choices with
    | .list (first :: _) =>
      match first with
      | .dict fkvs =>
        let msg := PyVal.pyOr (PyVal.get fkvs "message") (PyVal.get fkvs "msg")
        match msg with
        | .dict mkvs => PyVal.pyOr (PyVal.get mkvs "content") (PyVal.get mkvs "text")
        | _ => PyVal.pyOr (PyVal.get fkvs "text") (PyVal.get fkvs "content")
      | _ => .none
    | _ => .none
  let analysis_output : String :=
    match parsed with
    | .str s => s
    | v => dumps v
  [("analysed_review", analysed_review),
   ("input_tokens", input_tokens),
   ("output_tokens", output_tokens),
   ("total_tokens", total_tokens),
   ("analysis_output", .str analysis_output)]

/-- `openai_mapper`: parse the response, then extract canonical fields. -/
def openai_mapper (response : PyVal) : List (String × PyVal) :=
  mapperExtract (mapperParse response)

/-- The `analysis_output` field of a mapped record, as a string. -/
def analysisOutputStr (m : List (String × PyVal)) : String :=
  match PyVal.get m "analysis_output" with
  | .str s => s
  | _ => ""

theorem analysisOutput_extract (p : PyVal) :
    analysisOutputStr (mapperExtract p)
      = (match p with | .str s => s | v => dumps v) := by
  cases p <;> rfl

/-- Re-mapping a serialised parse result parses straight back to it. -/
theorem openai_mapper_dumps (p : PyVal) :
    openai_mapper (.str (dumps p)) = mapperExtract p := by
  have hparse : mapperParse (.str (dumps p)) = p := by
    simp [mapperParse, loads_dumps]
  rw [openai_mapper, hparse]

theorem mapper_idem_of_parse {x p : PyVal} (hp : mapperParse x = p)
    (hao : analysisOutputStr (mapperExtract p) = dumps p) :
    openai_mapper (.str (analysisOutputStr (openai_mapper x))) = openai_mapper x := by
  have h1 : analysisOutputStr (openai_mapper x) = dumps p := by
    rw [openai_mapper, hp, hao]
  rw [h1, openai_mapper_dumps, openai_mapper, hp]

/-! ## The OpenAI batch adapter
    (src/backend/analysis/providers/openai_provider.py)

The HTTP traffic of one `analyze_batch` call is an explicit oracle
`ProviderEnv`: the upload and batch-creation responses, the sequence of poll
responses obtained within the 10-minute deadline (the list ending models the
deadline expiring), the output-file download, and the chat-completions
endpoint used by `analyze_single`. -/

/-- An HTTP response as the adapter reads it: `resp.ok` and `resp.json()`
(the JSON object body). -/
structure HttpResp where
  ok : Bool
  body : List (String × PyVal)

/-- The request body the adapter builds for one chat completion. -/
structure ChatBody where
  model : String
  content : String
  reasoning_effort : Option PyVal
deriving DecidableEq, Repr

/-- Lines 35-45: the `reasoning_effort` field is set from `reasoning.get("effort")`
when `reasoning` is truthy, is a dict, and the effort value is truthy. -/
def effortOf (reasoning : Option PyVal) : Option PyVal :=
  match reasoning with
  | Option.none => Option.none
  | some r =>
    if r.truthy then
      match r with
      | .dict kvs =>
        let e := PyVal.get kvs "effort"
        if e.truthy then some e else Option.none
      | _ => Option.none
    else Option.none

/-- The per-input prompt: `f"(prompt)\n\nReview:\n(inp)"`. -/
def fullPrompt (prompt inp : String) : String := prompt ++ "\n\nReview:\n" ++ inp

def mkChatBody (model full_prompt : String) (reasoning : Option PyVal) : ChatBody :=
  { model := model, content := full_prompt, reasoning_effort := effortOf reasoning }

structure ProviderEnv where
  uploadResp : HttpResp
  createResp : HttpResp
  pollResps : List HttpResp
  downloadOk : Bool
  downloadText : String
  chat : ChatBody → PyVal

/-- `analyze_single` (lines 112-129): build the chat body and return the
endpoint's JSON; a network exception surfaces as the oracle's error object. -/
def analyze_single (env : ProviderEnv) (full_prompt model : String)
    (reasoning : Option PyVal) : PyVal :=
  env.chat (mkChatBody model full_prompt reasoning)

/-- The per-item fallback the adapter uses whenever a batch step fails:
`[self.analyze_single(f"...", model, reasoning) for inp in inputs]`. -/
def fallbackSingles (env : ProviderEnv) (inputs : List String) (prompt model : String)
    (reasoning : Option PyVal) : List PyVal :=
  inputs.map (fun inp => analyze_single env (fullPrompt prompt inp) model reasoning)

/-- The poll loop (lines 73-83): keep the last good body; stop on an HTTP
failure, a terminal status, or the deadline (the oracle list running out). -/
def pollBatch : List HttpResp → List (String × PyVal) → List (String × PyVal)
  | [], current => current
  | rb :: more, current =>
    if !rb.ok then current
    else
      let fb := rb.body
      match PyVal.get fb "status" with
      | .str s =>
        if s = "completed" || s = "failed" || s = "cancelled" then fb
        else pollBatch more fb
      | _ => pollBatch more fb

/-- Output-file parsing (lines 99-110): one result per nonempty stripped
line; a line that is not JSON becomes a raw-wrapped object. -/
def parseOutputLines (content : String) : List PyVal :=
  (((content.splitOn "\n").map String.trim).filter (fun l => l ≠ "")).map
    (fun l =>
      match loads l with
      | some v => v
      | Option.none => .dict [("raw", .str l)])

/-- `analyze_batch` (lines 28-110).  Its five parameters mirror the Python
signature (`inputs, prompt, model, reasoning, completion_window`); the
completion window only shapes the batch-creation payload the oracle answers. -/
def analyze_batch (env : ProviderEnv) (inputs : List String) (prompt model : String)
    (reasoning : Option PyVal) (completion_window : String) : List PyVal :=
  if !env.uploadResp.ok then fallbackSingles env inputs prompt model reasoning
  else
    let input_file_id := PyVal.get env.uploadResp.body "id"
    if !input_file_id.truthy then fallbackSingles env inputs prompt model reasoning
    else if !env.createResp.ok then fallbackSingles env inputs prompt model reasoning
    else
      let final_batch := pollBatch env.pollResps env.createResp.body
      if PyVal.get final_batch "status" ≠ PyVal.str "completed" then
        fallbackSingles env inputs prompt model reasoning
      else
        let output_file_id := PyVal.get final_batch "output_file_id"
        if !output_file_id.truthy then fallbackSingles env inputs prompt model reasoning
        else if !env.downloadOk then fallbackSingles env inputs prompt model reasoning
        else parseOutputLines env.downloadText

/-! ### The call-binding mismatch the orchestrator hits

`analyze_batch` has five parameters after `self` (three of them without a
default), while the orchestrator dispatch in `process_batch`
(src/backend/routers/analysis.py, lines 188-195) passes six positional
arguments — the sixth being `progress_cb`.  Binding a Python positional call
requires the argument count to lie between the required and the declared
parameter counts; anything else raises `TypeError` at the call site. -/

/-- Parameter names of `OpenAIProvider.analyze_batch` (line 28), `self`
excluded. -/
def analyzeBatchParams : List String :=
  ["inputs", "prompt", "model", "reasoning", "completion_window"]

/-- How many of those parameters have no default value. -/
def analyzeBatchRequiredParams : Nat := 3

/-- Python positional binding: `n` positional arguments bind a signature with
`required` mandatory and `total` declared parameters iff
`required ≤ n ≤ total`. -/
def positionalBindOk (required total n : Nat) : Bool :=
  decide (required ≤ n) && decide (n ≤ total)

/-- The orchestrator passes `inputs, prompt, model, reasoning, "24h",
progress_cb` — six positional arguments. -/
def orchestratorAnalyzeBatchArgs : Nat := 6

/-! ## Job progress accounting
    (src/backend/routers/analysis.py, `process_batch`)

The two paths that write `AnalysisJob.processed_count` after
`total_reviews` has been set by the worker. -/

structure AnalysisJobState where
  processed_count : Nat
  total_reviews : Nat
deriving DecidableEq, Repr

/-- The provider-progress path (lines 169-186):
`processed_count = baseline + completed`, with `total_reviews` overwritten
whenever the reported total is truthy.  No cap is applied. -/
def progress_cb_update (baseline completed total : Nat) (j : AnalysisJobState) :
    AnalysisJobState :=
  { processed_count := baseline + completed,
    total_reviews := if total ≠ 0 then total else j.total_reviews }

/-- The post-persistence path (lines 209-217):
`processed_count = min(total_reviews or 0, (processed_count or 0) + len(batch))`. -/
def increment_after_batch (batchLen : Nat) (j : AnalysisJobState) : AnalysisJobState :=
  { j with processed_count := min j.total_reviews (j.processed_count + batchLen) }

/-! ## The ingestion engine (src/backend/scraper_service.py)

Naive-UTC datetimes are `Int` microseconds since the epoch; the scraper's
timezone stripping (`replace(tzinfo=None)`) is the identity here because the
model works in naive UTC throughout.  Python floats (playtime hours) are
modelled by `ℚ`, exact for `minutes / 60` and for every order comparison the
filters make. -/

/-- Microseconds per second, the resolution of the datetime model
(`timedelta(microseconds=1)` is the smallest step the code uses). -/
def usPerSec : Int := 1000000

/-- `utc_from_unix` (line 17) followed by `replace(tzinfo=None)`: the naive
UTC datetime of a UNIX-seconds stamp. -/
def utc_from_unix (ts : Int) : Int := ts * usPerSec

/-- One review object of a store-API page, the fields the engine reads. -/
structure RawReview where
  recommendationid : Option String
  timestamp_created : Option Int
  review : Option String
  voted_up : Bool
  language : Option String
  written_during_early_access : Bool
  received_for_free : Bool
  playtime_forever : Option Int
deriving DecidableEq, Repr

/-- The per-title settings (`ScrapeSettings`, lines 31-46). -/
structure ScrapeSettings where
  rate_limit_rpm : Nat
  language : String
  max_reviews : Option Nat
  complete_scraping : Bool
  min_playtime : Option ℚ
  max_playtime : Option ℚ
  start_date : Option Int
  end_date : Option Int
  early_access : String
  received_for_free : String
deriving DecidableEq, Repr

/-- A stored `Review` row, restricted to the columns the claims mention (the
extended vote/author metadata columns are copied verbatim from the payload
and are not read back by any claim). -/
structure SavedReview where
  review_id : String
  app_id : Nat
  review_text : String
  review_date : Int
  playtime_hours : ℚ
  review_type : String
  language : String
  early_access : Bool
  received_for_free : Bool
deriving DecidableEq, Repr

/-- A database write the fetch loop can perform.  `updateGameCursor` stands
for any persistence of the pagination cursor (the `Game.last_scraped_cursor`
column of models.py, or a cursor record); the loop below never emits it,
mirroring the `(cursor persistence removed)` comment at line 447 and the
absence of any cursor write in the function body. -/
inductive DbEffect where
  | insertReview (row : SavedReview)
  | updateGameCursor (app_id : Nat) (cursor : String)
deriving DecidableEq, Repr

def DbEffect.isCursorWrite : DbEffect → Bool
  | .updateGameCursor _ _ => true
  | _ => false

/-- State threaded through one `_save_reviews` call: reviews saved so far in
this call, the ids present in the store, and the writes performed. -/
structure SaveState where
  saved : Nat
  db : List String
  effects : List DbEffect
deriving DecidableEq, Repr

/-- Guard on an optional setting: the Python pattern
`x is not None and check(x)` — `false` when the option is absent. -/
def optCheck {α : Type} (p : α → Bool) : Option α → Bool
  | some a => p a
  | Option.none => false

theorem optCheck_none_of {α : Type} {p : α → Bool} {o : Option α}
    (h : ∀ a, o = some a → p a = false) : optCheck p o = false := by
  cases ho : o with
  | none => rfl
  | some a => exact h a ho

/-- The body of the per-review loop of `_save_reviews` (lines 495-566), in
source order: cap check, id and timestamp presence, derived fields, date
window, playtime bounds, early-access policy, free-copy policy, duplicate
check, then the insert.  (The Python `break` on the cap is equivalent to
skipping every remaining review, since `saved` never decreases.) -/
def saveStep (s : ScrapeSettings) (appId : Nat) (threshold : Option Int)
    (maxToSave : Option Int) (st : SaveState) (r : RawReview) : SaveState :=
  if optCheck (fun cap => decide ((st.saved : Int) ≥ cap)) maxToSave then st
  else
    match r.recommendationid with
    | Option.none => st
    | some rid =>
      match r.timestamp_created with
      | Option.none => st
      | some ts =>
        if optCheck (fun t => decide (utc_from_unix ts < t)) threshold then st
        else if optCheck (fun e => decide (utc_from_unix ts > e)) s.end_date then st
        else if optCheck (fun m => decide ((((r.playtime_forever).getD 0 : Int) : ℚ) / 60 < m))
            s.min_playtime then st
        else if optCheck (fun m => decide ((((r.playtime_forever).getD 0 : Int) : ℚ) / 60 > m))
            s.max_playtime then st
        else if s.early_access == "exclude" && r.written_during_early_access then st
        else if s.early_access == "only" && !r.written_during_early_access then st
        else if s.received_for_free == "exclude" && r.received_for_free then st
        else if s.received_for_free == "only" && !r.received_for_free then st
        else if rid ∈ st.db then st
        else
          { saved := st.saved + 1,
            db := rid :: st.db,
            effects := st.effects ++ [DbEffect.insertReview
              { review_id := rid, app_id := appId,
                review_text := (r.review).getD "",
                review_date := utc_from_unix ts,
                playtime_hours := (((r.playtime_forever).getD 0 : Int) : ℚ) / 60,
                review_type := if r.voted_up then "positive" else "negative",
                language := (match r.language with
                  | some l => if l ≠ "" then l else s.language
                  | Option.none => s.language).toLower,
                early_access := r.written_during_early_access,
                received_for_free := r.received_for_free }] }

/-- `_save_reviews` over a page: fold the per-review step, starting from zero
saved in this call.  (The `IntegrityError` rollback path is outside the
model; the claims that use this function assume no constraint violation.) -/
def save_reviews (s : ScrapeSettings) (appId : Nat) (reviews : List RawReview)
    (threshold : Option Int) (maxToSave : Option Int) (db0 : List String) : SaveState :=
  reviews.foldl (saveStep s appId threshold maxToSave) ⟨0, db0, []⟩

/-- One page of the store API: the reviews and the next cursor token.  The
`query_summary` totals feed only the UI progress estimates and are omitted. -/
structure Page where
  reviews : List RawReview
  cursor : Option String
deriving Repr

/-- State of the per-title fetch loop (lines 358-466).  Progress/ETA counters
and the log ring are UI-only and omitted; `stop_requested` is the cancel flag
read after each save. -/
structure LoopState where
  cursor : String
  saved_count : Nat
  remaining_needed : Option Int
  no_new_found : Bool
  stop_requested : Bool
  db : List String
  effects : List DbEffect
deriving DecidableEq, Repr

/-- Newest `timestamp_created` in a page:
`max((int(r.get("timestamp_created") or 0) for r in reviews), default=0)`. -/
def batchMaxTs : List RawReview → Int
  | [] => 0
  | r :: rest =>
    rest.foldl (fun acc x => max acc ((x.timestamp_created).getD 0))
      ((r.timestamp_created).getD 0)

/-- The loop state after one page's batch save (lines 430-441): the page's
reviews go through `_save_reviews`, the saved count grows, the remaining cap
shrinks, and the store and write list extend. -/
def pageSaveState (s : ScrapeSettings) (appId : Nat) (thr : Option Int)
    (p : Page) (st : LoopState) : LoopState :=
  let res := save_reviews s appId p.reviews thr st.remaining_needed st.db
  { st with
    saved_count := st.saved_count + res.saved,
    remaining_needed := st.remaining_needed.map (fun n => n - (res.saved : Int)),
    db := res.db,
    effects := st.effects ++ res.effects }

/-- The cursor advance (line 464): `payload.get("cursor") or cursor`. -/
def nextCursor (p : Page) (st : LoopState) : String :=
  match p.cursor with
  | some c => if c ≠ "" then c else st.cursor
  | Option.none => st.cursor

/-- The fetch loop of `_scrape_game` (lines 358-466) over the successive
pages the store returns (the list running out models the upstream ending):
early-stop check against the resume threshold, batch save, counter updates,
stop flag, empty-page and cap termination, cursor advance, next page. -/
def runPages (s : ScrapeSettings) (appId : Nat) (thresholdCmp : Option Int) :
    List Page → LoopState → LoopState
  | [], st => st
  | p :: rest, st =>
    if (if p.reviews.isEmpty then false
        else optCheck (fun t => decide (utc_from_unix (batchMaxTs p.reviews) ≤ t))
          thresholdCmp) then { st with no_new_found := true }
    else if (pageSaveState s appId thresholdCmp p st).stop_requested then
      pageSaveState s appId thresholdCmp p st
    else if p.reviews.isEmpty then pageSaveState s appId thresholdCmp p st
    else if optCheck (fun n => decide (n ≤ 0))
        (pageSaveState s appId thresholdCmp p st).remaining_needed then
      pageSaveState s appId thresholdCmp p st
    else
      runPages s appId thresholdCmp rest
        { pageSaveState s appId thresholdCmp p st with
          cursor := nextCursor p (pageSaveState s appId thresholdCmp p st) }

/-! ## `ScraperService.start` validation (lines 120-145)

The payload's playtime bounds are taken after `_to_float_safe`, which maps
missing or non-numeric values to `None`, so they arrive here as `Option ℚ`.
All state mutation (fresh running progress, the start log, the worker task)
happens only after every check passes. -/

structure ScraperPayload where
  global_min_playtime : Option ℚ
  global_max_playtime : Option ℚ
  overrides : List (String × (Option ℚ × Option ℚ))

structure ScraperState where
  is_running : Bool
  stop_requested : Bool
  logs : List String
  task_scheduled : Bool
deriving DecidableEq, Repr

/-- A bounds pair fails validation when both are set and max ≤ min. -/
def badRange (mn mx : Option ℚ) : Bool :=
  match mn, mx with
  | some a, some b => decide (b ≤ a)
  | _, _ => false

/-- `start`: the already-running guard, the global bounds check, the per-title
override checks in order, then — only on success — the state mutation and the
worker task.  The second component is the raised error, `none` on success. -/
def scraper_start (st : ScraperState) (payload : ScraperPayload) :
    ScraperState × Option String :=
  if st.is_running then (st, some "Scraper already running")
  else if badRange payload.global_min_playtime payload.global_max_playtime then
    (st, some "Max playtime must be greater than Min playtime")
  else
    match payload.overrides.find? (fun kv => badRange kv.2.1 kv.2.2) with
    | some kv =>
      (st, some ("For override " ++ kv.1 ++ ": Max playtime must be greater than Min playtime"))
    | Option.none =>
      ({ is_running := true, stop_requested := false,
         logs := ["Starting scraper"], task_scheduled := true }, Option.none)

/-! ## The credential vault creation path (src/backend/crud.py, lines 167-179)

`create_api_key` computes the display mask inside a `try` block whose first
statement calls `decrypt_key`; crud.py never imports that name (its imports
are lines 1-8), so the call raises `NameError`, the bare `except` swallows
it, and the stored `masked_key` is `None`. -/

/-- The names crud.py's module scope can resolve, from its import statements. -/
def crudModuleImports : List String :=
  ["List", "Optional", "func", "or_", "Session", "models", "schemas",
   "get_mapper_for_name", "json"]

/-- The display form lines 170-172 compute when the decode succeeds: the last
six plaintext characters, right-justified to width six with stars, behind a
four-star prefix. -/
def intendedMaskedKey (decoded : String) : String :=
  let lastSix := String.mk (decoded.toList.drop (decoded.length - 6))
  "****" ++ String.mk (List.replicate (6 - lastSix.length) '*') ++ lastSix

/-- The `masked_key` value `create_api_key` persists: the masking is attempted
only if the module can resolve `decrypt_key`; any failure (the `NameError`
here, or a decryption error) lands in the `except` and stores `None`. -/
def create_api_key_masked (decrypt : String → Option String) (encrypted_key : String) :
    Option String :=
  if crudModuleImports.contains "decrypt_key" then
    match decrypt encrypted_key with
    | some decoded => some (intendedMaskedKey decoded)
    | Option.none => Option.none
  else Option.none

/-! ## The claims -/

/-- C1: the orchestrator's six-positional-argument dispatch (the sixth being
`progress_cb`) cannot bind the reference adapter's `analyze_batch`, whose
signature declares five parameters after `self`; the call raises `TypeError`,
so the adapter does not accept the six arguments the claim says it accepts. -/
theorem C1_analyze_batch_arity_mismatch :
    positionalBindOk analyzeBatchRequiredParams analyzeBatchParams.length
      orchestratorAnalyzeBatchArgs = false := by decide

/-- C3 counterexample: a job whose total was set to 4 by the worker, after a
first batch of two with a silent provider (capped increment path, processed
becomes 2) and a second batch of two whose provider reports one of its two
items done via `progress_cb(1, 2)`, ends with `processed_count = 3` and
`total_reviews = 2`: the claimed invariant `processed_count ≤ total_reviews`
fails on the `progress_cb` path. -/
theorem C3_counterexample :
    let j := progress_cb_update 2 1 2 (increment_after_batch 2 ⟨0, 4⟩)
    ¬ j.processed_count ≤ j.total_reviews := by decide

/-- C3, amended: the invariant holds on the increment path — the worker caps
`processed_count` at `total_reviews` there — while the `progress_cb` path
writes `baseline + completed` uncapped (and may overwrite `total_reviews`),
so the invariant is not enforced on that path. -/
theorem C3_amended_increment_capped (batchLen : Nat) (j : AnalysisJobState) :
    (increment_after_batch batchLen j).processed_count
      ≤ (increment_after_batch batchLen j).total_reviews := by
  simp [increment_after_batch]

/-- C8: for every key stored through the vault's create operation, the
persisted `masked_key` is `None` — not the padded last-six-characters display
form the claim (and the code's own comment) describe — because crud.py never
imports `decrypt_key`, so the masking attempt raises `NameError` and the bare
`except` stores `None`. -/
theorem C8_masked_key_is_none (decrypt : String → Option String) (enc : String) :
    create_api_key_masked decrypt enc = Option.none := by
  have h : crudModuleImports.contains "decrypt_key" = false := by decide
  simp [create_api_key_masked, h]
  intro hmem
  exact absurd hmem (by decide)

/-- C10: the mapper is total and shape-stable: on every input it returns a
record with exactly the keys `analysed_review`, `input_tokens`,
`output_tokens`, `total_tokens`, `analysis_output`, and the
`analysis_output` value is always a string. -/
theorem C10_mapper_total_shape (x : PyVal) :
    (openai_mapper x).map Prod.fst
        = ["analysed_review", "input_tokens", "output_tokens", "total_tokens",
           "analysis_output"]
      ∧ ∃ s, List.lookup "analysis_output" (openai_mapper x) = some (PyVal.str s) := by
  refine ⟨rfl, ?_⟩
  exact ⟨_, rfl⟩

theorem bool_ne_false {b : Bool} (h : ¬ b = false) : b = true := by
  cases b
  · exact absurd rfl h
  · rfl

/-- C5: whenever the upload, batch creation or download fails (HTTP failure
or missing id), or polling ends in any terminal status other than
`completed`, `analyze_batch` returns exactly one `analyze_single` result per
input, in input order. -/
theorem C5_batch_failure_fallback (env : ProviderEnv) (inputs : List String)
    (prompt model : String) (reasoning : Option PyVal) (window : String)
    (hfail : env.uploadResp.ok = false
      ∨ (PyVal.get env.uploadResp.body "id").truthy = false
      ∨ env.createResp.ok = false
      ∨ PyVal.get (pollBatch env.pollResps env.createResp.body) "status" ≠ PyVal.str "completed"
      ∨ (PyVal.get (pollBatch env.pollResps env.createResp.body) "output_file_id").truthy = false
      ∨ env.downloadOk = false) :
    analyze_batch env inputs prompt model reasoning window
      = inputs.map (fun inp => analyze_single env (fullPrompt prompt inp) model reasoning) := by
  unfold analyze_batch
  by_cases h1 : env.uploadResp.ok = false
  · simp [h1, fallbackSingles]
  · simp only [h1]
    by_cases h2 : (PyVal.get env.uploadResp.body "id").truthy = false
    · simp [bool_ne_false (fun hc => h1 hc), h2, fallbackSingles]
    · by_cases h3 : env.createResp.ok = false
      · simp [bool_ne_false (fun hc => h1 hc), bool_ne_false h2, h3,
          fallbackSingles]
      · by_cases h4 : PyVal.get (pollBatch env.pollResps env.createResp.body) "status"
            = PyVal.str "completed"
        · by_cases h5 : (PyVal.get (pollBatch env.pollResps env.createResp.body)
              "output_file_id").truthy = false
          · simp [bool_ne_false (fun hc => h1 hc), bool_ne_false h2,
              bool_ne_false h3, h4, h5, fallbackSingles]
          · by_cases h6 : env.downloadOk = false
            · simp [bool_ne_false (fun hc => h1 hc), bool_ne_false h2,
                bool_ne_false h3, h4, bool_ne_false h5, h6, fallbackSingles]
            · rcases hfail with h | h | h | h | h | h <;> first
                | exact absurd h h1
                | exact absurd h h2
                | exact absurd h h3
                | exact absurd h4 h
                | exact absurd h h5
                | exact absurd h h6
        · simp [bool_ne_false (fun hc => h1 hc), bool_ne_false h2,
            bool_ne_false h3, h4, fallbackSingles]

/-- The concrete environment of the C5 witness: batch creation fails with an
HTTP error. -/
def envC5 : ProviderEnv :=
  { uploadResp := { ok := true, body := [("id", PyVal.str "file-1")] },
    createResp := { ok := false, body := [] },
    pollResps := [], downloadOk := false, downloadText := "",
    chat := fun b => PyVal.str b.content }

/-- C5 witness: a concrete environment whose batch creation fails (HTTP
error) downgrades a two-input batch to the two per-item results, in order. -/
theorem C5_witness :
    analyze_batch envC5 ["first review", "second review"] "summarise" "gpt-5"
        Option.none "24h"
      = ["first review", "second review"].map
          (fun inp => analyze_single envC5 (fullPrompt "summarise" inp) "gpt-5" Option.none) :=
  C5_batch_failure_fallback envC5 ["first review", "second review"] "summarise" "gpt-5"
    Option.none "24h" (Or.inr (Or.inr (Or.inl rfl)))

/-- C9: with no run active, starting the scraper fails with the playtime
validation error — and mutates nothing, scheduling no worker task — whenever
both bounds are set with max ≤ min in the global settings or in any per-title
override. -/
theorem C9_validation_rejects (st : ScraperState) (payload : ScraperPayload)
    (hrun : st.is_running = false)
    (hbad : badRange payload.global_min_playtime payload.global_max_playtime = true
      ∨ ∃ kv ∈ payload.overrides, badRange kv.2.1 kv.2.2 = true) :
    (scraper_start st payload).1 = st ∧ (scraper_start st payload).2 ≠ Option.none := by
  unfold scraper_start
  rcases hbad with h | ⟨kv, hkv, hbadkv⟩
  · simp [hrun, h]
  · simp only [hrun, Bool.false_eq_true, if_false]
    by_cases hg : badRange payload.global_min_playtime payload.global_max_playtime = true
    · simp [hg]
    · simp only [hg, Bool.false_eq_true, if_false]
      have hfind : (payload.overrides.find? (fun kv => badRange kv.2.1 kv.2.2)).isSome := by
        rw [List.find?_isSome]
        exact ⟨kv, hkv, hbadkv⟩
      match hmatch : payload.overrides.find? (fun kv => badRange kv.2.1 kv.2.2) with
      | some found => rw [hmatch]; simp
      | Option.none => rw [hmatch] at hfind; simp at hfind

/-- The idle service state of the C9 witness. -/
def idleStateC9 : ScraperState := ⟨false, false, [], false⟩

/-- The C9 witness payload: global bounds min 5h, max 3h, no overrides. -/
def badPayloadC9 : ScraperPayload := ⟨some 5, some 3, []⟩

/-- C9 witness: the min-5h/max-3h payload is rejected at start and the idle
state is left untouched. -/
theorem C9_witness :
    (scraper_start idleStateC9 badPayloadC9).1 = idleStateC9
    ∧ (scraper_start idleStateC9 badPayloadC9).2 ≠ Option.none :=
  C9_validation_rejects idleStateC9 badPayloadC9 rfl (Or.inl (by decide))

/-- C4: in the per-title fetch loop, a non-empty page whose newest
`timestamp_created`, converted to naive UTC, is at or below the resume
threshold terminates the title at once: the loop state is returned unchanged
except for the no-new flag, so no review from that page or from any later
page of the title is saved. -/
theorem C4_early_stop (s : ScrapeSettings) (appId : Nat) (t : Int)
    (p : Page) (rest : List Page) (st : LoopState)
    (hne : p.reviews ≠ [])
    (hmax : utc_from_unix (batchMaxTs p.reviews) ≤ t) :
    runPages s appId (some t) (p :: rest) st = { st with no_new_found := true } := by
  unfold runPages
  have hne' : p.reviews.isEmpty = false := by
    cases hp : p.reviews with
    | nil => exact absurd hp hne
    | cons a l => rfl
  simp [hne', hmax, optCheck]

/-- The settings of the C4 witness: max 10 reviews, no filters. -/
def settingsC4 : ScrapeSettings :=
  ⟨60, "english", some 10, false, Option.none, Option.none, Option.none, Option.none,
    "include", "include"⟩

/-- The page of the C4 witness: one review created at UNIX second 100. -/
def pageC4 : Page :=
  ⟨[⟨some "7", some 100, some "old review", true, some "english", false, false, some 120⟩],
    some "c2"⟩

/-- The initial loop state of the C4 witness. -/
def loopStateC4 : LoopState := ⟨"*", 0, some 10, false, false, [], []⟩

/-- C4 witness: with the resume threshold equal to that page's newest
timestamp, the loop stops at once without saving. -/
theorem C4_witness :
    runPages settingsC4 1 (some (utc_from_unix 100)) [pageC4] loopStateC4
      = { loopStateC4 with no_new_found := true } :=
  C4_early_stop settingsC4 1 (utc_from_unix 100) pageC4 [] loopStateC4
    (by decide) (by decide)

theorem ne_true_of_eq_false {b : Bool} (h : b = false) : ¬ b = true := by
  subst h
  exact Bool.false_ne_true

/-- Every step of the save loop either leaves the write list unchanged or
appends one review insert — never a cursor write. -/
theorem saveStep_effects_shape (s : ScrapeSettings) (appId : Nat) (thr : Option Int)
    (cap : Option Int) (st : SaveState) (r : RawReview) :
    (saveStep s appId thr cap st r).effects = st.effects
    ∨ ∃ row, (saveStep s appId thr cap st r).effects
        = st.effects ++ [DbEffect.insertReview row] := by
  cases hr : r.recommendationid with
  | none =>
    unfold saveStep
    rw [hr]
    by_cases h0 : optCheck (fun cap => decide ((st.saved : Int) ≥ cap)) cap = true
    · rw [if_pos h0]; exact Or.inl rfl
    · rw [if_neg h0]; exact Or.inl rfl
  | some rid =>
    cases hts : r.timestamp_created with
    | none =>
      unfold saveStep
      simp only [hr, hts]
      by_cases h0 : optCheck (fun cap => decide ((st.saved : Int) ≥ cap)) cap = true
      · rw [if_pos h0]; exact Or.inl rfl
      · rw [if_neg h0]; exact Or.inl rfl
    | some ts =>
      unfold saveStep
      simp only [hr, hts]
      by_cases h0 : optCheck (fun cap => decide ((st.saved : Int) ≥ cap)) cap = true
      · rw [if_pos h0]; exact Or.inl rfl
      · rw [if_neg h0]
        by_cases h1 : optCheck (fun t => decide (utc_from_unix ts < t)) thr = true
        · rw [if_pos h1]; exact Or.inl rfl
        · rw [if_neg h1]
          by_cases h2 : optCheck (fun e => decide (utc_from_unix ts > e)) s.end_date = true
          · rw [if_pos h2]; exact Or.inl rfl
          · rw [if_neg h2]
            by_cases h3 : optCheck
                (fun m => decide ((((r.playtime_forever).getD 0 : Int) : ℚ) / 60 < m))
                s.min_playtime = true
            · rw [if_pos h3]; exact Or.inl rfl
            · rw [if_neg h3]
              by_cases h4 : optCheck
                  (fun m => decide ((((r.playtime_forever).getD 0 : Int) : ℚ) / 60 > m))
                  s.max_playtime = true
              · rw [if_pos h4]; exact Or.inl rfl
              · rw [if_neg h4]
                by_cases h5 : (s.early_access == "exclude"
                    && r.written_during_early_access) = true
                · rw [if_pos h5]; exact Or.inl rfl
                · rw [if_neg h5]
                  by_cases h6 : (s.early_access == "only"
                      && !r.written_during_early_access) = true
                  · rw [if_pos h6]; exact Or.inl rfl
                  · rw [if_neg h6]
                    by_cases h7 : (s.received_for_free == "exclude"
                        && r.received_for_free) = true
                    · rw [if_pos h7]; exact Or.inl rfl
                    · rw [if_neg h7]
                      by_cases h8 : (s.received_for_free == "only"
                          && !r.received_for_free) = true
                      · rw [if_pos h8]; exact Or.inl rfl
                      · rw [if_neg h8]
                        by_cases h9 : rid ∈ st.db
                        · rw [if_pos h9]; exact Or.inl rfl
                        · rw [if_neg h9]
                          exact Or.inr ⟨_, rfl⟩

theorem foldl_saveStep_cursorFree (s : ScrapeSettings) (appId : Nat) (thr : Option Int)
    (cap : Option Int) :
    ∀ (reviews : List RawReview) (st : SaveState),
      (∀ e ∈ st.effects, e.isCursorWrite = false) →
      ∀ e ∈ (reviews.foldl (saveStep s appId thr cap) st).effects, e.isCursorWrite = false
  | [], st, h => h
  | r :: rs, st, h => by
    rw [List.foldl_cons]
    refine foldl_saveStep_cursorFree s appId thr cap rs _ ?_
    rcases saveStep_effects_shape s appId thr cap st r with hs | ⟨row, hs⟩
    · rw [hs]; exact h
    · rw [hs]
      intro e he
      rcases List.mem_append.mp he with h1 | h1
      · exact h e h1
      · rw [List.mem_singleton] at h1
        subst h1
        rfl

/-- A whole `_save_reviews` call emits only review inserts. -/
theorem save_reviews_cursorFree (s : ScrapeSettings) (appId : Nat)
    (reviews : List RawReview) (thr : Option Int) (cap : Option Int) (db0 : List String) :
    ∀ e ∈ (save_reviews s appId reviews thr cap db0).effects, e.isCursorWrite = false := by
  unfold save_reviews
  exact foldl_saveStep_cursorFree s appId thr cap reviews ⟨0, db0, []⟩ (by simp)

/-- The post-save loop state carries only the old writes plus the page's
review inserts. -/
theorem pageSaveState_cursorFree (s : ScrapeSettings) (appId : Nat) (thr : Option Int)
    (p : Page) (st : LoopState) (h : ∀ e ∈ st.effects, e.isCursorWrite = false) :
    ∀ e ∈ (pageSaveState s appId thr p st).effects, e.isCursorWrite = false := by
  intro e he
  have he' : e ∈ st.effects
      ++ (save_reviews s appId p.reviews thr st.remaining_needed st.db).effects := he
  rcases List.mem_append.mp he' with h1 | h1
  · exact h e h1
  · exact save_reviews_cursorFree s appId p.reviews thr st.remaining_needed st.db e h1

/-- C2, amended: during an ingestion run the engine never persists a cursor —
the fetch loop performs no cursor write on any page (its only writes are
review inserts; cursor persistence was removed, and models.py has no
`ScrapeCursor` table). -/
theorem C2_amended_no_cursor_writes (s : ScrapeSettings) (appId : Nat) (thr : Option Int) :
    ∀ (pages : List Page) (st : LoopState),
      (∀ e ∈ st.effects, e.isCursorWrite = false) →
      ∀ e ∈ (runPages s appId thr pages st).effects, e.isCursorWrite = false
  | [], st, h => h
  | p :: rest, st, h => by
    unfold runPages
    by_cases hE : (if p.reviews.isEmpty then false
        else optCheck (fun t => decide (utc_from_unix (batchMaxTs p.reviews) ≤ t)) thr) = true
    · rw [if_pos hE]; exact h
    · rw [if_neg hE]
      by_cases h1 : (pageSaveState s appId thr p st).stop_requested = true
      · rw [if_pos h1]; exact pageSaveState_cursorFree s appId thr p st h
      · rw [if_neg h1]
        by_cases h2 : p.reviews.isEmpty = true
        · rw [if_pos h2]; exact pageSaveState_cursorFree s appId thr p st h
        · rw [if_neg h2]
          by_cases h3 : optCheck (fun n => decide (n ≤ 0))
              (pageSaveState s appId thr p st).remaining_needed = true
          · rw [if_pos h3]; exact pageSaveState_cursorFree s appId thr p st h
          · rw [if_neg h3]
            exact C2_amended_no_cursor_writes s appId thr rest _
              (pageSaveState_cursorFree s appId thr p st h)

/-- The settings of the C2 counterexample run. -/
def settingsC2 : ScrapeSettings :=
  ⟨60, "english", some 10, false, Option.none, Option.none, Option.none, Option.none,
    "include", "include"⟩

/-- One fetched page holding one fresh review. -/
def pageC2 : Page :=
  ⟨[⟨some "1", some 5, some "nice game", true, some "english", false, false, some 120⟩],
    some "c1"⟩

/-- The initial loop state of the C2 counterexample run. -/
def loopStateC2 : LoopState := ⟨"*", 0, some 10, false, false, [], []⟩

/-- C2 counterexample: on a page where one new review is saved, the engine
performs no cursor write at all — the claimed `ScrapeCursor` create/update
does not happen (line 447 of scraper_service.py: cursor persistence
removed). -/
theorem C2_counterexample :
    let final := runPages settingsC2 1 Option.none [pageC2] loopStateC2
    final.saved_count = 1
      ∧ final.effects.all (fun e => !e.isCursorWrite) = true := by decide

/-- A stored review row, as the cursor-freedom witness sees it. -/
def rowC2 : SavedReview :=
  ⟨"1", 1, "nice game", 5000000, 2, "positive", "english", false, false⟩

/-- A loop state already carrying that row's insert. -/
def seededStateC2 : LoopState :=
  ⟨"*", 0, some 10, false, false, ["1"], [DbEffect.insertReview rowC2]⟩

/-- C2 witness: the amended theorem at a concrete state and page list,
applied to the one write present. -/
theorem C2_witness :
    (DbEffect.insertReview rowC2).isCursorWrite = false :=
  C2_amended_no_cursor_writes settingsC2 1 Option.none [] seededStateC2
    (by intro e he; simp [seededStateC2] at he; subst he; rfl)
    (DbEffect.insertReview rowC2) (by simp [seededStateC2, runPages])

/-- C6: in the batch-save step, a review that has an id and a timestamp,
passes the date window and the early-access and free-copy policies, is not a
duplicate, and is considered while the per-call cap is not reached, is stored
if and only if its derived playtime in hours — `playtime_forever` minutes
divided by 60 — lies within the configured bounds, each bound checked only
when set. -/
theorem C6_playtime_round_trip (s : ScrapeSettings) (appId : Nat) (thr : Option Int)
    (cap : Option Int) (st : SaveState) (r : RawReview) (rid : String) (ts : Int)
    (hcap : ∀ c, cap = some c → (st.saved : Int) < c)
    (hid : r.recommendationid = some rid)
    (hts : r.timestamp_created = some ts)
    (hthr : ∀ t, thr = some t → ¬ utc_from_unix ts < t)
    (hend : ∀ e, s.end_date = some e → ¬ utc_from_unix ts > e)
    (hea1 : ¬ (s.early_access = "exclude" ∧ r.written_during_early_access = true))
    (hea2 : ¬ (s.early_access = "only" ∧ r.written_during_early_access = false))
    (hfree1 : ¬ (s.received_for_free = "exclude" ∧ r.received_for_free = true))
    (hfree2 : ¬ (s.received_for_free = "only" ∧ r.received_for_free = false))
    (hdup : rid ∉ st.db) :
    (saveStep s appId thr cap st r).saved = st.saved + 1
      ↔ ((∀ m, s.min_playtime = some m → m ≤ (((r.playtime_forever).getD 0 : Int) : ℚ) / 60)
         ∧ (∀ m, s.max_playtime = some m → (((r.playtime_forever).getD 0 : Int) : ℚ) / 60 ≤ m)) := by
  have h0 : ¬ optCheck (fun cap => decide ((st.saved : Int) ≥ cap)) cap = true := by
    rw [optCheck_none_of]
    · exact Bool.false_ne_true
    · intro c hc
      exact decide_eq_false (not_le.mpr (hcap c hc))
  have h1 : ¬ optCheck (fun t => decide (utc_from_unix ts < t)) thr = true := by
    rw [optCheck_none_of]
    · exact Bool.false_ne_true
    · intro t ht
      exact decide_eq_false (hthr t ht)
  have h2 : ¬ optCheck (fun e => decide (utc_from_unix ts > e)) s.end_date = true := by
    rw [optCheck_none_of]
    · exact Bool.false_ne_true
    · intro e he
      exact decide_eq_false (hend e he)
  have h5 : ¬ (s.early_access == "exclude" && r.written_during_early_access) = true := by
    intro hb
    rw [Bool.and_eq_true, beq_iff_eq] at hb
    exact hea1 ⟨hb.1, hb.2⟩
  have h6 : ¬ (s.early_access == "only" && !r.written_during_early_access) = true := by
    intro hb
    rw [Bool.and_eq_true, beq_iff_eq, Bool.not_eq_true'] at hb
    exact hea2 ⟨hb.1, hb.2⟩
  have h7 : ¬ (s.received_for_free == "exclude" && r.received_for_free) = true := by
    intro hb
    rw [Bool.and_eq_true, beq_iff_eq] at hb
    exact hfree1 ⟨hb.1, hb.2⟩
  have h8 : ¬ (s.received_for_free == "only" && !r.received_for_free) = true := by
    intro hb
    rw [Bool.and_eq_true, beq_iff_eq, Bool.not_eq_true'] at hb
    exact hfree2 ⟨hb.1, hb.2⟩
  unfold saveStep
  simp only [hid, hts]
  rw [if_neg h0, if_neg h1, if_neg h2]
  by_cases h3 : optCheck
      (fun m => decide ((((r.playtime_forever).getD 0 : Int) : ℚ) / 60 < m))
      s.min_playtime = true
  · rw [if_pos h3]
    constructor
    · intro hEq
      exact absurd hEq (by omega)
    · intro hP
      exfalso
      cases hmv : s.min_playtime with
      | none => rw [hmv] at h3; exact Bool.false_ne_true h3
      | some m =>
        rw [hmv] at h3
        have hlt := of_decide_eq_true h3
        have hge := hP.1 m hmv
        linarith
  · rw [if_neg h3]
    by_cases h4 : optCheck
        (fun m => decide ((((r.playtime_forever).getD 0 : Int) : ℚ) / 60 > m))
        s.max_playtime = true
    · rw [if_pos h4]
      constructor
      · intro hEq
        exact absurd hEq (by omega)
      · intro hP
        exfalso
        cases hmv : s.max_playtime with
        | none => rw [hmv] at h4; exact Bool.false_ne_true h4
        | some m =>
          rw [hmv] at h4
          have hgt := of_decide_eq_true h4
          have hle := hP.2 m hmv
          linarith
    · rw [if_neg h4, if_neg h5, if_neg h6, if_neg h7, if_neg h8, if_neg hdup]
      constructor
      · intro _
        constructor
        · intro m hm
          rw [hm] at h3
          have hnl : ¬ (((r.playtime_forever).getD 0 : Int) : ℚ) / 60 < m :=
            fun hh => h3 (decide_eq_true hh)
          linarith
        · intro m hm
          rw [hm] at h4
          have hng : ¬ (((r.playtime_forever).getD 0 : Int) : ℚ) / 60 > m :=
            fun hh => h4 (decide_eq_true hh)
          linarith
      · intro _
        rfl

/-- The settings of the C6 witness: playtime bounds 1h-10h, no other filters. -/
def settingsC6 : ScrapeSettings :=
  ⟨60, "english", some 10, false, some 1, some 10, Option.none, Option.none,
    "include", "include"⟩

/-- The review of the C6 witness: 120 minutes on record, so 2 hours. -/
def reviewC6 : RawReview :=
  ⟨some "42", some 1700000000, some "good", true, some "english", false, false, some 120⟩

/-- C6 witness: the two-hour review is stored under the 1h-10h bounds, and the
round-trip equivalence holds at the concrete inputs. -/
theorem C6_witness :
    (saveStep settingsC6 1 Option.none (some 10) ⟨0, [], []⟩ reviewC6).saved = 0 + 1
      ↔ ((∀ m, settingsC6.min_playtime = some m
            → m ≤ (((reviewC6.playtime_forever).getD 0 : Int) : ℚ) / 60)
         ∧ (∀ m, settingsC6.max_playtime = some m
            → (((reviewC6.playtime_forever).getD 0 : Int) : ℚ) / 60 ≤ m)) :=
  C6_playtime_round_trip settingsC6 1 Option.none (some 10) ⟨0, [], []⟩ reviewC6 "42"
    1700000000
    (by intro c hc; cases hc; decide)
    rfl rfl
    (by intro t ht; cases ht)
    (by intro e he; cases he)
    (by decide) (by decide) (by decide) (by decide)
    (by decide)

/-- C7 counterexample input: a JSON string literal that itself encodes an
object with a `usage` field. -/
def c7Input : PyVal :=
  .str "\"\x7b\\\"usage\\\": \x7b\\\"prompt_tokens\\\": 3\x7d\x7d\""

/-- C7 counterexample: for this input the first mapping parses only to the
inner string (no token extraction, `input_tokens = None`), while re-mapping
its canonical `analysis_output` parses the inner object and extracts
`input_tokens = 3` — so `map(map(x).analysis_output) ≠ map(x)`. -/
theorem C7_counterexample :
    openai_mapper (.str (analysisOutputStr (openai_mapper c7Input)))
      ≠ openai_mapper c7Input := by decide

/-- C7, amended: the mapper is idempotent on its canonical outputs except
when the parse of the input yields a string distinct from the input itself
(a string-encoded payload, as in the counterexample): whenever the front-end
parse does not produce such a string, re-mapping the `analysis_output` field
reproduces the mapped record exactly. -/
theorem C7_amended_idempotent (x : PyVal)
    (h : ∀ s, mapperParse x = PyVal.str s → x = PyVal.str s) :
    openai_mapper (.str (analysisOutputStr (openai_mapper x))) = openai_mapper x := by
  cases hp : mapperParse x with
  | str s =>
    have hx := h s hp
    subst hx
    have h1 : analysisOutputStr (openai_mapper (PyVal.str s)) = s := by
      rw [openai_mapper, hp]
      exact analysisOutput_extract (PyVal.str s)
    rw [h1]
  | none => exact mapper_idem_of_parse hp (analysisOutput_extract _)
  | bool b => exact mapper_idem_of_parse hp (analysisOutput_extract _)
  | int n => exact mapper_idem_of_parse hp (analysisOutput_extract _)
  | list xs => exact mapper_idem_of_parse hp (analysisOutput_extract _)
  | dict kvs => exact mapper_idem_of_parse hp (analysisOutput_extract _)

/-- The C7 witness input: an already-structured chat completion. -/
def c7Dict : PyVal :=
  .dict [("usage", .dict [("prompt_tokens", .int 3), ("completion_tokens", .int 4)])]

/-- C7 witness: on the structured input the amended idempotence holds. -/
theorem C7_witness :
    openai_mapper (.str (analysisOutputStr (openai_mapper c7Dict))) = openai_mapper c7Dict :=
  C7_amended_idempotent c7Dict (fun s hs => nomatch hs)

end RAT
